import Mathlib

/-!
Verification of the two-phase heat-transfer correlation library
(`ht/boiling_flow.py` and `ht/conv_two_phase.py`).

The Python functions are shallowly embedded over the real numbers:
float arithmetic is modelled by exact real arithmetic, Python's
`x ** y` with a float exponent by `Real.rpow`, `x ** n` with an
integer literal exponent by monoid/int power, optional float
arguments by `Option ℝ` together with Python's truthiness test,
and functions that can raise by `Except String ℝ`.
-/

namespace HT

noncomputable section

open Real
open Classical

/-- `scipy.constants.g`, the standard gravity used by `fluids.core.Bond`. -/
def gravity : ℝ := 9.80665

/-- External collaborator `fluids.core.Reynolds` (called with V, D, rho, mu). -/
def Reynolds (V D rho mu : ℝ) : ℝ := rho * V * D / mu

/-- External collaborator `fluids.core.Prandtl` (called with Cp, k, mu). -/
def Prandtl (Cp k mu : ℝ) : ℝ := Cp * mu / k

/-- External collaborator `fluids.core.Weber` (called with V, L, rho, sigma). -/
def Weber (V L rho sigma : ℝ) : ℝ := V ^ 2 * L * rho / sigma

/-- External collaborator `fluids.core.Bond` (called with rhol, rhog, sigma, L). -/
def Bond (rhol rhog sigma L : ℝ) : ℝ := gravity * (rhol - rhog) * L ^ 2 / sigma

/-- External collaborator `fluids.core.Boiling` (called with G, q, Hvap). -/
def Boiling (G q Hvap : ℝ) : ℝ := q / (G * Hvap)

/-- External collaborator `fluids.core.nu_mu_converter` (rho and mu given,
returns the kinematic viscosity nu). -/
def nu_mu_converter (rho mu : ℝ) : ℝ := mu / rho

/-- `math.log10`. -/
def log10 (x : ℝ) : ℝ := Real.logb 10 x

/-- Python truthiness of an optional float: `None` and `0.0` are falsy,
every other float is truthy. -/
def truthy : Option ℝ → Prop
  | none => False
  | some v => v ≠ 0

@[simp] lemma truthy_none : ¬ truthy none := fun h => h

@[simp] lemma truthy_some {v : ℝ} : truthy (some v) ↔ v ≠ 0 := Iff.rfl

/-- An optional argument that, if supplied, is strictly positive. -/
def OptPos (o : Option ℝ) : Prop := ∀ v, o = some v → 0 < v

/-- Which of the three control-flow branches a dual-mode boiling correlation
takes for a given pair of optional boundary conditions. -/
inductive BCBranch where
  | direct
  | inverse
  | err
deriving DecidableEq

/-- Branch selection shared by `Lazarek_Black`, `Li_Wu`, `Sun_Mishima` and
`Yun_Heo_Kim`: `if q: ... elif Te: ... else: raise`. -/
def dualModeBranch (q Te : Option ℝ) : BCBranch :=
  if truthy q then .direct else if truthy Te then .inverse else .err

/-- Branch selection of `Thome`:
`if q is None and Te: ... elif q is None and Te is None: raise ... [fall through]`. -/
def thomeBranch (q Te : Option ℝ) : BCBranch :=
  if q = none ∧ truthy Te then .inverse
  else if q = none ∧ Te = none then .err
  else .direct

/-- The error message raised when neither boundary condition is usable. -/
def missingBC : String := "Either q or Te is needed for this correlation"

/-- The generic arithmetic failure produced by Python when the direct path is
entered with `q` absent (`TypeError` from arithmetic on `None`). -/
def typeErrorMsg : String := "unsupported operand type"

/-! ### `Lazarek_Black` (boiling_flow.py lines 102-112) -/

/-- Heat-flux path of `Lazarek_Black`. -/
def Lazarek_Black_direct (m D mul kl Hvap q : ℝ) : ℝ :=
  let G := m / (π / 4 * D ^ 2)
  let Relo := G * D / mul
  let Bg := Boiling G q Hvap
  30 * Relo ^ (0.857 : ℝ) * Bg ^ (0.714 : ℝ) * kl / D

/-- Excess-temperature path of `Lazarek_Black` (the sympy-derived closed form). -/
def Lazarek_Black_Te (m D mul kl Hvap Te : ℝ) : ℝ :=
  let G := m / (π / 4 * D ^ 2)
  let Relo := G * D / mul
  27000 * (30 : ℝ) ^ ((71 : ℝ) / 143) * (1 / (G * Hvap)) ^ ((357 : ℝ) / 143) *
    Relo ^ ((857 : ℝ) / 286) * Te ^ ((357 : ℝ) / 143) * kl ^ ((500 : ℝ) / 143) /
    D ^ ((500 : ℝ) / 143)

/-- `Lazarek_Black` with its boundary-condition dispatch. -/
def Lazarek_Black (m D mul kl Hvap : ℝ) (q Te : Option ℝ) : Except String ℝ :=
  match dualModeBranch q Te with
  | .direct => .ok (Lazarek_Black_direct m D mul kl Hvap (q.getD 0))
  | .inverse => .ok (Lazarek_Black_Te m D mul kl Hvap (Te.getD 0))
  | .err => .error missingBC

/-! ### `Li_Wu` (boiling_flow.py lines 193-204) -/

/-- Heat-flux path of `Li_Wu`. -/
def Li_Wu_direct (m x D rhol rhog mul kl Hvap sigma q : ℝ) : ℝ :=
  let G := m / (π / 4 * D ^ 2)
  let Rel := G * D * (1 - x) / mul
  let Bo := Bond rhol rhog sigma D
  let Bg := Boiling G q Hvap
  334 * Bg ^ (0.3 : ℝ) * (Bo * Rel ^ (0.36 : ℝ)) ^ (0.4 : ℝ) * kl / D

/-- Excess-temperature path of `Li_Wu`. -/
def Li_Wu_Te (m x D rhol rhog mul kl Hvap sigma Te : ℝ) : ℝ :=
  let G := m / (π / 4 * D ^ 2)
  let Rel := G * D * (1 - x) / mul
  let Bo := Bond rhol rhog sigma D
  let A := 334 * (Bo * Rel ^ (0.36 : ℝ)) ^ (0.4 : ℝ) * kl / D
  A ^ ((10 : ℝ) / 7) * Te ^ ((3 : ℝ) / 7) / (G ^ ((3 : ℝ) / 7) * Hvap ^ ((3 : ℝ) / 7))

/-- `Li_Wu` with its boundary-condition dispatch. -/
def Li_Wu (m x D rhol rhog mul kl Hvap sigma : ℝ) (q Te : Option ℝ) :
    Except String ℝ :=
  match dualModeBranch q Te with
  | .direct => .ok (Li_Wu_direct m x D rhol rhog mul kl Hvap sigma (q.getD 0))
  | .inverse => .ok (Li_Wu_Te m x D rhol rhog mul kl Hvap sigma (Te.getD 0))
  | .err => .error missingBC

/-! ### `Sun_Mishima` (boiling_flow.py lines 282-294) -/

/-- Heat-flux path of `Sun_Mishima`. -/
def Sun_Mishima_direct (m D rhol rhog mul kl Hvap sigma q : ℝ) : ℝ :=
  let G := m / (π / 4 * D ^ 2)
  let V := G / rhol
  let Relo := G * D / mul
  let We := Weber V D rhol sigma
  let Bg := Boiling G q Hvap
  6 * Relo ^ (1.05 : ℝ) * Bg ^ (0.54 : ℝ) /
    (We ^ (0.191 : ℝ) * (rhol / rhog) ^ (0.142 : ℝ)) * kl / D

/-- Excess-temperature path of `Sun_Mishima`. -/
def Sun_Mishima_Te (m D rhol rhog mul kl Hvap sigma Te : ℝ) : ℝ :=
  let G := m / (π / 4 * D ^ 2)
  let V := G / rhol
  let Relo := G * D / mul
  let We := Weber V D rhol sigma
  let A := 6 * Relo ^ (1.05 : ℝ) / (We ^ (0.191 : ℝ) * (rhol / rhog) ^ (0.142 : ℝ)) * kl / D
  A ^ ((50 : ℝ) / 23) * Te ^ ((27 : ℝ) / 23) / (G ^ ((27 : ℝ) / 23) * Hvap ^ ((27 : ℝ) / 23))

/-- `Sun_Mishima` with its boundary-condition dispatch. -/
def Sun_Mishima (m D rhol rhog mul kl Hvap sigma : ℝ) (q Te : Option ℝ) :
    Except String ℝ :=
  match dualModeBranch q Te with
  | .direct => .ok (Sun_Mishima_direct m D rhol rhog mul kl Hvap sigma (q.getD 0))
  | .inverse => .ok (Sun_Mishima_Te m D rhol rhog mul kl Hvap sigma (Te.getD 0))
  | .err => .error missingBC

/-! ### `Yun_Heo_Kim` (boiling_flow.py lines 581-593) -/

/-- Heat-flux path of `Yun_Heo_Kim`. -/
def Yun_Heo_Kim_direct (m x D rhol mul Hvap sigma q : ℝ) : ℝ :=
  let G := m / (π / 4 * D ^ 2)
  let V := G / rhol
  let Rel := G * D * (1 - x) / mul
  let We := Weber V D rhol sigma
  let Bg := Boiling G q Hvap
  136876 * (Bg * We) ^ (0.1993 : ℝ) * Rel ^ (-0.1626 : ℝ)

/-- Excess-temperature path of `Yun_Heo_Kim`. -/
def Yun_Heo_Kim_Te (m x D rhol mul Hvap sigma Te : ℝ) : ℝ :=
  let G := m / (π / 4 * D ^ 2)
  let V := G / rhol
  let Rel := G * D * (1 - x) / mul
  let We := Weber V D rhol sigma
  let A := 136876 * We ^ (0.1993 : ℝ) * Rel ^ (-0.1626 : ℝ) *
    (Te / G / Hvap) ^ (0.1993 : ℝ)
  A ^ ((10000 : ℝ) / 8007)

/-- `Yun_Heo_Kim` with its boundary-condition dispatch. -/
def Yun_Heo_Kim (m x D rhol mul Hvap sigma : ℝ) (q Te : Option ℝ) :
    Except String ℝ :=
  match dualModeBranch q Te with
  | .direct => .ok (Yun_Heo_Kim_direct m x D rhol mul Hvap sigma (q.getD 0))
  | .inverse => .ok (Yun_Heo_Kim_Te m x D rhol mul Hvap sigma (Te.getD 0))
  | .err => .error missingBC

/-! ### `Thome` (boiling_flow.py lines 451-505) -/

/-- Modelled from the spec (the function lives in `ht.conv_internal`, outside
the given sources): the turbulent Gnielinski correlation
`Nu = (f/8)(Re-1000)Pr / (1 + 12.7 (f/8)^(1/2) (Pr^(2/3)-1))`. -/
def turbulent_Gnielinski (Re Pr fd : ℝ) : ℝ :=
  fd / 8 * (Re - 1000) * Pr / (1 + 12.7 * (fd / 8) ^ (0.5 : ℝ) * (Pr ^ ((2 : ℝ) / 3) - 1))

/-- All intermediate quantities of the heat-flux-specified path of `Thome`. -/
structure ThomeState where
  G : ℝ
  Rel : ℝ
  Reg : ℝ
  qref : ℝ
  fopt : ℝ
  tau : ℝ
  vp : ℝ
  Bo : ℝ
  nul : ℝ
  delta0 : ℝ
  tl : ℝ
  tv : ℝ
  t_dry_film : ℝ
  t_film : ℝ
  delta_end : ℝ
  t_dry : ℝ
  Ll : ℝ
  Ldry : ℝ
  Prl : ℝ
  Prg : ℝ
  fl : ℝ
  fg : ℝ
  Nu_lam_Zl : ℝ
  Nu_trans_Zl : ℝ
  Nu_lam_Zg : ℝ
  Nu_trans_Zg : ℝ
  h_Zl : ℝ
  h_Zg : ℝ
  h_film : ℝ
  h : ℝ

/-- The heat-flux-specified path of `Thome` (lines 458-505), transcribed
statement by statement.  `C_delta0` is the code's name for the minimum film
thickness constant `0.3e-6` m. -/
def ThomeDirect (m x D rhol rhog mul mug kl kg Cpl Cpg Hvap sigma Psat Pc q : ℝ) :
    ThomeState :=
  let C_delta0 : ℝ := 0.3e-6
  let G := m / (π / 4 * D ^ 2)
  let Rel := G * D * (1 - x) / mul
  let Reg := G * D * x / mug
  let qref := 3328 * (Psat / Pc) ^ (-0.5 : ℝ)
  let fopt := (q / qref) ^ (1.74 : ℝ)
  let tau := 1 / fopt
  let vp := G * (x / rhog + (1 - x) / rhol)
  let Bo := rhol * D / sigma * vp ^ 2
  let nul := nu_mu_converter rhol mul
  let delta0 := D * 0.29 * (3 * (nul / vp / D) ^ (0.5 : ℝ)) ^ (0.84 : ℝ) *
    ((0.07 * Bo ^ (0.41 : ℝ)) ^ (-8 : ℤ) + (0.1 : ℝ) ^ (-8 : ℤ)) ^ (-(1 / 8) : ℝ)
  let tl := tau / (1 + rhol / rhog * (x / (1 - x)))
  let tv := tau / (1 + rhog / rhol * ((1 - x) / x))
  let t_dry_film := rhol * Hvap / q * (delta0 - C_delta0)
  let t_film := if t_dry_film > tv then tv else t_dry_film
  let delta_end := if t_dry_film > tv then delta0 - q / rhol / Hvap * tv else C_delta0
  let t_dry := if t_dry_film > tv then 0 else tv - t_dry_film
  let Ll := tau * G / rhol * (1 - x)
  let Ldry := t_dry * vp
  let Prg := Prandtl Cpg kg mug
  let Prl := Prandtl Cpl kl mul
  let fg := (1.82 * log10 Reg - 1.64) ^ (-2 : ℤ)
  let fl := (1.82 * log10 Rel - 1.64) ^ (-2 : ℤ)
  let Nu_lam_Zl := 2 * 0.455 * Prl ^ ((1 : ℝ) / 3) * (D * Rel / Ll) ^ (0.5 : ℝ)
  let Nu_trans_Zl := turbulent_Gnielinski Rel Prl fl * (1 + (D / Ll) ^ ((2 : ℝ) / 3))
  let Nu_lam_Zg := if Ldry = 0 then 0 else
    2 * 0.455 * Prg ^ ((1 : ℝ) / 3) * (D * Reg / Ldry) ^ (0.5 : ℝ)
  let Nu_trans_Zg := if Ldry = 0 then 0 else
    turbulent_Gnielinski Reg Prg fg * (1 + (D / Ldry) ^ ((2 : ℝ) / 3))
  let h_Zg := kg / D * (Nu_lam_Zg ^ 4 + Nu_trans_Zg ^ 4) ^ (0.25 : ℝ)
  let h_Zl := kl / D * (Nu_lam_Zl ^ 4 + Nu_trans_Zl ^ 4) ^ (0.25 : ℝ)
  let h_film := 2 * kl / (delta0 + C_delta0)
  let h := tl / tau * h_Zl + t_film / tau * h_film + t_dry / tau * h_Zg
  ⟨G, Rel, Reg, qref, fopt, tau, vp, Bo, nul, delta0, tl, tv, t_dry_film, t_film,
   delta_end, t_dry, Ll, Ldry, Prl, Prg, fl, fg, Nu_lam_Zl, Nu_trans_Zl,
   Nu_lam_Zg, Nu_trans_Zg, h_Zl, h_Zg, h_film, h⟩

/-- `Thome` with its boundary-condition dispatch.  The inverse path calls the
external root finder (`scipy.optimize.fsolve`), passed here as the `solver`
collaborator, on `q ↦ q / h(q) - Te` with initial guess `1e4`, and re-runs the
direct path at the solved heat flux.  Entering the direct path with `q`
absent reproduces Python's generic `TypeError` from arithmetic on `None`. -/
def ThomeF (solver : (ℝ → ℝ) → ℝ → ℝ)
    (m x D rhol rhog mul mug kl kg Cpl Cpg Hvap sigma Psat Pc : ℝ)
    (q Te : Option ℝ) : Except String ℝ :=
  match thomeBranch q Te with
  | .inverse =>
      let qs := solver
        (fun qq => qq /
          (ThomeDirect m x D rhol rhog mul mug kl kg Cpl Cpg Hvap sigma Psat Pc qq).h
          - Te.getD 0) 10000
      .ok (ThomeDirect m x D rhol rhog mul mug kl kg Cpl Cpg Hvap sigma Psat Pc qs).h
  | .err => .error missingBC
  | .direct =>
      match q with
      | some qv =>
          .ok (ThomeDirect m x D rhol rhog mul mug kl kg Cpl Cpg Hvap sigma Psat Pc qv).h
      | none => .error typeErrorMsg

/-! ### Non-boiling correlations (conv_two_phase.py) -/

/-- `Davis_David` (lines 86-90). -/
def Davis_David (m x D rhol rhog Cpl kl mul : ℝ) : ℝ :=
  let G := m / (π / 4 * D ^ 2)
  let Prl := Prandtl Cpl kl mul
  let Nu_TP := 0.060 * (rhol / rhog) ^ (0.28 : ℝ) * (D * G * x / mul) ^ (0.87 : ℝ) *
    Prl ^ (0.4 : ℝ)
  Nu_TP * kl / D

/-- `Elamvaluthi_Srinivas` (lines 161-170). -/
def Elamvaluthi_Srinivas (m x D rhol rhog Cpl kl mug mu_b : ℝ) (mu_w : Option ℝ) : ℝ :=
  let Vg := m * x / (rhog * (π / 4) * D ^ 2)
  let Vl := m * (1 - x) / (rhol * (π / 4) * D ^ 2)
  let Prl := Prandtl Cpl kl mu_b
  let ReM := D * Vl * rhol / mu_b + D * Vg * rhog / mug
  let Nu_TP := 0.5 * (mug / mu_b) ^ (0.25 : ℝ) * ReM ^ (0.7 : ℝ) * Prl ^ ((1 : ℝ) / 3)
  let Nu_TP := if truthy mu_w then Nu_TP * (mu_b / mu_w.getD 0) ^ (0.14 : ℝ) else Nu_TP
  Nu_TP * kl / D

/-- `Groothuis_Hendal` (lines 248-261). -/
def Groothuis_Hendal (m x D rhol rhog Cpl kl mug mu_b : ℝ) (mu_w : Option ℝ)
    (water : Bool) : ℝ :=
  let Vg := m * x / (rhog * (π / 4) * D ^ 2)
  let Vl := m * (1 - x) / (rhol * (π / 4) * D ^ 2)
  let Prl := Prandtl Cpl kl mu_b
  let ReM := D * Vl * rhol / mu_b + D * Vg * rhog / mug
  let Nu_TP := if water then 0.029 * ReM ^ (0.87 : ℝ) * Prl ^ ((1 : ℝ) / 3)
    else 2.6 * ReM ^ (0.39 : ℝ) * Prl ^ ((1 : ℝ) / 3)
  let Nu_TP := if truthy mu_w then Nu_TP * (mu_b / mu_w.getD 0) ^ (0.14 : ℝ) else Nu_TP
  Nu_TP * kl / D

/-- `Hughmark` (lines 330-336). -/
def Hughmark (m x alpha D L Cpl kl : ℝ) (mu_b mu_w : Option ℝ) : ℝ :=
  let ml := m * (1 - x)
  let RL := 1 - alpha
  let Nu_TP := 1.75 * RL ^ (-0.5 : ℝ) * (ml * Cpl / RL / kl / L) ^ ((1 : ℝ) / 3)
  let Nu_TP := if truthy mu_b ∧ truthy mu_w then
    Nu_TP * (mu_b.getD 0 / mu_w.getD 0) ^ (0.14 : ℝ) else Nu_TP
  Nu_TP * kl / D

/-- Modelled from the spec (the function lives in `ht.conv_internal`, outside
the given sources): the laminar entry-length Nusselt correlation of Seider and
Tate used by `Knott`, with the same optional wall-viscosity correction. -/
def laminar_entry_Seider_Tate (Re Pr L Di mu : ℝ) (mu_w : Option ℝ) : ℝ :=
  1.86 * (Re * Pr * Di / L) ^ ((1 : ℝ) / 3) *
    (if truthy mu_w then (mu / mu_w.getD 0) ^ (0.14 : ℝ) else 1)

/-- `Knott` (lines 413-421).  The liquid-only coefficient `hl` is optional;
when it is not truthy it is computed from the laminar entry-length
correlation. -/
def Knott (m x D rhol rhog Cpl kl mu_b : ℝ) (mu_w : Option ℝ) (L : ℝ)
    (hl : Option ℝ) : ℝ :=
  let Vgs := m * x / (rhog * (π / 4) * D ^ 2)
  let Vls := m * (1 - x) / (rhol * (π / 4) * D ^ 2)
  let hl0 := if truthy hl then hl.getD 0 else
    let V := Vgs + Vls
    let Re := Reynolds V D rhol mu_b
    let Pr := Prandtl Cpl kl mu_b
    laminar_entry_Seider_Tate Re Pr L D mu_b mu_w * kl / D
  hl0 * (1 + Vgs / Vls) ^ ((1 : ℝ) / 3)

/-- `Kudirka_Grosh_McFadden` (lines 490-498). -/
def Kudirka_Grosh_McFadden (m x D rhol rhog Cpl kl mug mu_b : ℝ)
    (mu_w : Option ℝ) : ℝ :=
  let Vgs := m * x / (rhog * (π / 4) * D ^ 2)
  let Vls := m * (1 - x) / (rhol * (π / 4) * D ^ 2)
  let Prl := Prandtl Cpl kl mu_b
  let Rels := D * Vls * rhol / mu_b
  let Nu := 125 * (Vgs / Vls) ^ (0.125 : ℝ) * (mug / mu_b) ^ (0.6 : ℝ) *
    Rels ^ (0.25 : ℝ) * Prl ^ ((1 : ℝ) / 3)
  let Nu := if truthy mu_w then Nu * (mu_b / mu_w.getD 0) ^ (0.14 : ℝ) else Nu
  Nu * kl / D

/-- `Martin_Sims` (lines 552-554). -/
def Martin_Sims (m x D rhol rhog hl : ℝ) : ℝ :=
  let Vgs := m * x / (rhog * (π / 4) * D ^ 2)
  let Vls := m * (1 - x) / (rhol * (π / 4) * D ^ 2)
  hl * (1 + 0.64 * (Vgs / Vls) ^ (0.5 : ℝ))

/-- `Ravipudi_Godbold` (lines 621-629). -/
def Ravipudi_Godbold (m x D rhol rhog Cpl kl mug mu_b : ℝ) (mu_w : Option ℝ) : ℝ :=
  let Vgs := m * x / (rhog * (π / 4) * D ^ 2)
  let Vls := m * (1 - x) / (rhol * (π / 4) * D ^ 2)
  let Prl := Prandtl Cpl kl mu_b
  let Rels := D * Vls * rhol / mu_b
  let Nu := 0.56 * (Vgs / Vls) ^ (0.3 : ℝ) * (mug / mu_b) ^ (0.2 : ℝ) *
    Rels ^ (0.6 : ℝ) * Prl ^ ((1 : ℝ) / 3)
  let Nu := if truthy mu_w then Nu * (mu_b / mu_w.getD 0) ^ (0.14 : ℝ) else Nu
  Nu * kl / D

/-- The liquid Reynolds number used by `Aggour` to pick its branch. -/
def AggourRel (m x alpha D rhol mu_b : ℝ) : ℝ :=
  let Vls := m * (1 - x) / (rhol * (π / 4) * D ^ 2)
  let Vl := Vls / (1 - alpha)
  Reynolds Vl D rhol mu_b

/-- The turbulent branch of `Aggour` (lines 717-718). -/
def AggourTurb (m x alpha D rhol Cpl kl mu_b : ℝ) : ℝ :=
  let Prl := Prandtl Cpl kl mu_b
  let Rel := AggourRel m x alpha D rhol mu_b
  let hl := 0.0155 * (kl / D) * Rel ^ (0.83 : ℝ) * Prl ^ (0.5 : ℝ)
  hl * (1 - alpha) ^ (-0.83 : ℝ)

/-- The laminar branch of `Aggour` (lines 720-723). -/
def AggourLam (m x alpha D rhol Cpl kl mu_b : ℝ) (mu_w : Option ℝ) (L : ℝ) : ℝ :=
  let Prl := Prandtl Cpl kl mu_b
  let Rel := AggourRel m x alpha D rhol mu_b
  let hl := 1.615 * (kl / D) * (Rel * Prl * D / L) ^ ((1 : ℝ) / 3)
  let hl := if truthy mu_w then hl * (mu_b / mu_w.getD 0) ^ (0.14 : ℝ) else hl
  hl * (1 - alpha) ^ (-(1 : ℝ) / 3)

/-- `Aggour` (lines 710-724): `if turbulent or (Rel > 2000 and turbulent is
None)` selects the turbulent branch, otherwise the laminar one. -/
def Aggour (m x alpha D rhol Cpl kl mu_b : ℝ) (mu_w : Option ℝ) (L : ℝ)
    (turbulent : Option Bool) : ℝ :=
  if turbulent = some true ∨ (AggourRel m x alpha D rhol mu_b > 2000 ∧ turbulent = none)
  then AggourTurb m x alpha D rhol Cpl kl mu_b
  else AggourLam m x alpha D rhol Cpl kl mu_b mu_w L

/-! ### Claim C5: missing boundary condition -/

/-- C5: for every dual-mode boiling correlation (Lazarek_Black, Li_Wu,
Sun_Mishima, Yun_Heo_Kim, Thome), a call in which neither the heat flux `q`
nor the excess temperature `Te` is supplied raises the error
"Either q or Te is needed for this correlation" and returns no result. -/
theorem dual_mode_missing_bc_error
    (m x D rhol rhog mul mug kl kg Cpl Cpg Hvap sigma Psat Pc : ℝ)
    (solver : (ℝ → ℝ) → ℝ → ℝ) :
    Lazarek_Black m D mul kl Hvap none none =
      Except.error "Either q or Te is needed for this correlation"
    ∧ Li_Wu m x D rhol rhog mul kl Hvap sigma none none =
      Except.error "Either q or Te is needed for this correlation"
    ∧ Sun_Mishima m D rhol rhog mul kl Hvap sigma none none =
      Except.error "Either q or Te is needed for this correlation"
    ∧ Yun_Heo_Kim m x D rhol mul Hvap sigma none none =
      Except.error "Either q or Te is needed for this correlation"
    ∧ ThomeF solver m x D rhol rhog mul mug kl kg Cpl Cpg Hvap sigma Psat Pc
        none none =
      Except.error "Either q or Te is needed for this correlation" := by
  refine ⟨?_, ?_, ?_, ?_, ?_⟩ <;>
    simp [Lazarek_Black, Li_Wu, Sun_Mishima, Yun_Heo_Kim, ThomeF,
      dualModeBranch, thomeBranch, missingBC]

/-! ### Claim C10: Thome with q omitted and Te = 0 -/

/-- C10: `Thome` called with `q` omitted and `Te = 0` neither raises the
designated missing-boundary-condition error nor returns a coefficient; its
guard tests `Te is None`, so a zero `Te` falls through into the direct
heat-flux path with `q` absent, which fails with a generic arithmetic error —
unlike the other four dual-mode correlations, whose truthiness checks route
the same call to the designated error. -/
theorem thome_te_zero_generic_error
    (m x D rhol rhog mul mug kl kg Cpl Cpg Hvap sigma Psat Pc : ℝ)
    (solver : (ℝ → ℝ) → ℝ → ℝ) :
    ThomeF solver m x D rhol rhog mul mug kl kg Cpl Cpg Hvap sigma Psat Pc
        none (some 0) = Except.error "unsupported operand type"
    ∧ ThomeF solver m x D rhol rhog mul mug kl kg Cpl Cpg Hvap sigma Psat Pc
        none (some 0) ≠
      Except.error "Either q or Te is needed for this correlation"
    ∧ (∀ y : ℝ, ThomeF solver m x D rhol rhog mul mug kl kg Cpl Cpg Hvap sigma
        Psat Pc none (some 0) ≠ Except.ok y)
    ∧ Lazarek_Black m D mul kl Hvap none (some 0) =
      Except.error "Either q or Te is needed for this correlation"
    ∧ Li_Wu m x D rhol rhog mul kl Hvap sigma none (some 0) =
      Except.error "Either q or Te is needed for this correlation"
    ∧ Sun_Mishima m D rhol rhog mul kl Hvap sigma none (some 0) =
      Except.error "Either q or Te is needed for this correlation"
    ∧ Yun_Heo_Kim m x D rhol mul Hvap sigma none (some 0) =
      Except.error "Either q or Te is needed for this correlation" := by
  refine ⟨?_, ?_, ?_, ?_, ?_, ?_, ?_⟩ <;>
    simp [Lazarek_Black, Li_Wu, Sun_Mishima, Yun_Heo_Kim, ThomeF,
      dualModeBranch, thomeBranch, missingBC, typeErrorMsg]

/-! ### Claim C6: heat-flux path precedence when both are supplied -/

/-- C6 counterexample: with `q = 0` supplied together with `Te`, the
truthiness check skips the heat-flux path, so the result differs from the
call with only `q` supplied (which errors), refuting the claim for `q = 0`. -/
theorem q_precedence_cex :
    Lazarek_Black 1 1 1 1 1 (some 0) (some 1) ≠
      Lazarek_Black 1 1 1 1 1 (some 0) none := by
  simp [Lazarek_Black, dualModeBranch]

/-- C6 amended: for every dual-mode boiling correlation, if both `q` and
`Te` are supplied and `q` is nonzero, the heat-flux path takes precedence:
the result equals the result of the same call with only `q` supplied, and
`Te` has no effect on the result.  (For `Thome` the proviso `q ≠ 0` is not
even needed, since its guard tests `q is None`.) -/
theorem q_precedence_amended
    (m x D rhol rhog mul mug kl kg Cpl Cpg Hvap sigma Psat Pc q te : ℝ)
    (solver : (ℝ → ℝ) → ℝ → ℝ) (hq : q ≠ 0) :
    Lazarek_Black m D mul kl Hvap (some q) (some te) =
      Lazarek_Black m D mul kl Hvap (some q) none
    ∧ Li_Wu m x D rhol rhog mul kl Hvap sigma (some q) (some te) =
      Li_Wu m x D rhol rhog mul kl Hvap sigma (some q) none
    ∧ Sun_Mishima m D rhol rhog mul kl Hvap sigma (some q) (some te) =
      Sun_Mishima m D rhol rhog mul kl Hvap sigma (some q) none
    ∧ Yun_Heo_Kim m x D rhol mul Hvap sigma (some q) (some te) =
      Yun_Heo_Kim m x D rhol mul Hvap sigma (some q) none
    ∧ ThomeF solver m x D rhol rhog mul mug kl kg Cpl Cpg Hvap sigma Psat Pc
        (some q) (some te) =
      ThomeF solver m x D rhol rhog mul mug kl kg Cpl Cpg Hvap sigma Psat Pc
        (some q) none := by
  refine ⟨?_, ?_, ?_, ?_, ?_⟩ <;>
    simp [Lazarek_Black, Li_Wu, Sun_Mishima, Yun_Heo_Kim, ThomeF,
      dualModeBranch, thomeBranch, hq]

/-- C6 amended, witness at a concrete input. -/
theorem q_precedence_amended_witness :
    Lazarek_Black 1 1 1 1 1 (some 1) (some 5) =
      Lazarek_Black 1 1 1 1 1 (some 1) none
    ∧ Li_Wu 1 1 1 1 1 1 1 1 1 (some 1) (some 5) =
      Li_Wu 1 1 1 1 1 1 1 1 1 (some 1) none
    ∧ Sun_Mishima 1 1 1 1 1 1 1 1 (some 1) (some 5) =
      Sun_Mishima 1 1 1 1 1 1 1 1 (some 1) none
    ∧ Yun_Heo_Kim 1 1 1 1 1 1 1 (some 1) (some 5) =
      Yun_Heo_Kim 1 1 1 1 1 1 1 (some 1) none
    ∧ ThomeF (fun _ _ => 0) 1 1 1 1 1 1 1 1 1 1 1 1 1 1 1 (some 1) (some 5) =
      ThomeF (fun _ _ => 0) 1 1 1 1 1 1 1 1 1 1 1 1 1 1 1 (some 1) none :=
  q_precedence_amended 1 1 1 1 1 1 1 1 1 1 1 1 1 1 1 1 5 (fun _ _ => 0)
    (by norm_num)

/-! ### Claim C7: a supplied zero behaves like an absent argument -/

/-- C7 counterexample: `Thome` called with `q = 0` and `Te = 1` does not take
the excess-temperature path — its guard tests `q is None`, so the supplied
zero falls into the heat-flux path; the claim fails for `Thome`. -/
theorem zero_truthiness_cex :
    thomeBranch (some 0) (some 1) = BCBranch.direct
    ∧ thomeBranch (some 0) (some 1) ≠ BCBranch.inverse
    ∧ ThomeF (fun _ _ => 0) 1 1 1 1 1 1 1 1 1 1 1 1 1 1 1 (some 0) (some 1) =
      Except.ok (ThomeDirect 1 1 1 1 1 1 1 1 1 1 1 1 1 1 1 0).h := by
  refine ⟨?_, ?_, ?_⟩ <;> simp [thomeBranch, ThomeF]

/-- C7 amended: a supplied zero is treated as an absent argument by every
truthiness check: the four analytically-inverted dual-mode correlations
called with `q = 0` and `Te > 0` take the excess-temperature path, and the
non-boiling correlations with an optional wall-viscosity argument called
with `mu_w = 0` do not apply the `(mu_b/mu_w)^0.14` correction — but
`Thome` is the exception among the dual-mode correlations: its guard tests
`q is None`, so `q = 0` enters the heat-flux path. -/
theorem zero_truthiness_amended
    (m x alpha D L rhol rhog Cpl kl mul mug mu_b Hvap sigma te : ℝ)
    (water : Bool) (hte : 0 < te) :
    dualModeBranch (some 0) (some te) = BCBranch.inverse
    ∧ Lazarek_Black m D mul kl Hvap (some 0) (some te) =
      Lazarek_Black m D mul kl Hvap none (some te)
    ∧ Li_Wu m x D rhol rhog mul kl Hvap sigma (some 0) (some te) =
      Li_Wu m x D rhol rhog mul kl Hvap sigma none (some te)
    ∧ Sun_Mishima m D rhol rhog mul kl Hvap sigma (some 0) (some te) =
      Sun_Mishima m D rhol rhog mul kl Hvap sigma none (some te)
    ∧ Yun_Heo_Kim m x D rhol mul Hvap sigma (some 0) (some te) =
      Yun_Heo_Kim m x D rhol mul Hvap sigma none (some te)
    ∧ thomeBranch (some 0) (some te) = BCBranch.direct
    ∧ Elamvaluthi_Srinivas m x D rhol rhog Cpl kl mug mu_b (some 0) =
      Elamvaluthi_Srinivas m x D rhol rhog Cpl kl mug mu_b none
    ∧ Groothuis_Hendal m x D rhol rhog Cpl kl mug mu_b (some 0) water =
      Groothuis_Hendal m x D rhol rhog Cpl kl mug mu_b none water
    ∧ (∀ b : Option ℝ, Hughmark m x alpha D L Cpl kl b (some 0) =
      Hughmark m x alpha D L Cpl kl b none)
    ∧ Kudirka_Grosh_McFadden m x D rhol rhog Cpl kl mug mu_b (some 0) =
      Kudirka_Grosh_McFadden m x D rhol rhog Cpl kl mug mu_b none
    ∧ Ravipudi_Godbold m x D rhol rhog Cpl kl mug mu_b (some 0) =
      Ravipudi_Godbold m x D rhol rhog Cpl kl mug mu_b none
    ∧ (∀ t : Option Bool, Aggour m x alpha D rhol Cpl kl mu_b (some 0) L t =
      Aggour m x alpha D rhol Cpl kl mu_b none L t) := by
  refine ⟨?_, ?_, ?_, ?_, ?_, ?_, ?_, ?_, ?_, ?_, ?_, ?_⟩ <;>
    simp [Lazarek_Black, Li_Wu, Sun_Mishima, Yun_Heo_Kim, dualModeBranch,
      thomeBranch, Elamvaluthi_Srinivas, Groothuis_Hendal, Hughmark,
      Kudirka_Grosh_McFadden, Ravipudi_Godbold, Aggour, AggourLam, hte.ne']

/-- C7 amended, witness at a concrete input. -/
theorem zero_truthiness_amended_witness :
    dualModeBranch (some 0) (some 1) = BCBranch.inverse
    ∧ Lazarek_Black 1 1 1 1 1 (some 0) (some 1) =
      Lazarek_Black 1 1 1 1 1 none (some 1)
    ∧ Li_Wu 1 1 1 1 1 1 1 1 1 (some 0) (some 1) =
      Li_Wu 1 1 1 1 1 1 1 1 1 none (some 1)
    ∧ Sun_Mishima 1 1 1 1 1 1 1 1 (some 0) (some 1) =
      Sun_Mishima 1 1 1 1 1 1 1 1 none (some 1)
    ∧ Yun_Heo_Kim 1 1 1 1 1 1 1 (some 0) (some 1) =
      Yun_Heo_Kim 1 1 1 1 1 1 1 none (some 1)
    ∧ thomeBranch (some 0) (some 1) = BCBranch.direct
    ∧ Elamvaluthi_Srinivas 1 1 1 1 1 1 1 1 1 (some 0) =
      Elamvaluthi_Srinivas 1 1 1 1 1 1 1 1 1 none
    ∧ Groothuis_Hendal 1 1 1 1 1 1 1 1 1 (some 0) false =
      Groothuis_Hendal 1 1 1 1 1 1 1 1 1 none false
    ∧ (∀ b : Option ℝ, Hughmark 1 1 1 1 1 1 1 b (some 0) =
      Hughmark 1 1 1 1 1 1 1 b none)
    ∧ Kudirka_Grosh_McFadden 1 1 1 1 1 1 1 1 1 (some 0) =
      Kudirka_Grosh_McFadden 1 1 1 1 1 1 1 1 1 none
    ∧ Ravipudi_Godbold 1 1 1 1 1 1 1 1 1 (some 0) =
      Ravipudi_Godbold 1 1 1 1 1 1 1 1 1 none
    ∧ (∀ t : Option Bool, Aggour 1 1 1 1 1 1 1 1 (some 0) 1 t =
      Aggour 1 1 1 1 1 1 1 1 none 1 t) :=
  zero_truthiness_amended 1 1 1 1 1 1 1 1 1 1 1 1 1 1 1 false (by norm_num)

/-! ### Claim C8: Aggour branch selection -/

/-- C8: `Aggour` is a two-branch piecewise function of the liquid Reynolds
number: with `turbulent = None` it returns the turbulent formula exactly when
`Rel > 2000` and the laminar formula when `Rel ≤ 2000` (so `Rel = 2000` takes
the laminar branch); `turbulent = True` forces the turbulent formula and
`turbulent = False` the laminar formula for every `Rel`. -/
theorem aggour_branches (m x alpha D rhol Cpl kl mu_b : ℝ) (mu_w : Option ℝ)
    (L : ℝ) :
    (AggourRel m x alpha D rhol mu_b > 2000 →
      Aggour m x alpha D rhol Cpl kl mu_b mu_w L none =
        AggourTurb m x alpha D rhol Cpl kl mu_b)
    ∧ (AggourRel m x alpha D rhol mu_b ≤ 2000 →
      Aggour m x alpha D rhol Cpl kl mu_b mu_w L none =
        AggourLam m x alpha D rhol Cpl kl mu_b mu_w L)
    ∧ Aggour m x alpha D rhol Cpl kl mu_b mu_w L (some true) =
      AggourTurb m x alpha D rhol Cpl kl mu_b
    ∧ Aggour m x alpha D rhol Cpl kl mu_b mu_w L (some false) =
      AggourLam m x alpha D rhol Cpl kl mu_b mu_w L := by
  refine ⟨fun h => ?_, fun h => ?_, ?_, ?_⟩
  · rw [Aggour, if_pos (Or.inr ⟨h, rfl⟩)]
  · rw [Aggour, if_neg]
    rintro (hc | ⟨hgt, _⟩)
    · exact Option.noConfusion hc
    · exact absurd hgt (not_lt.2 h)
  · rw [Aggour, if_pos (Or.inl rfl)]
  · rw [Aggour, if_neg]
    rintro (hc | ⟨_, hc⟩) <;> simp at hc

/-- C8 witness: at a concrete input with liquid Reynolds number 4 (≤ 2000)
the default call takes the laminar branch. -/
theorem aggour_branches_witness :
    Aggour π (1/2) (1/2) 1 1 1 1 1 none 1 none =
      AggourLam π (1/2) (1/2) 1 1 1 1 1 none 1 := by
  have hrel : AggourRel π (1/2) (1/2) 1 1 1 = 4 := by
    simp only [AggourRel, Reynolds]
    field_simp
    ring
  exact (aggour_branches π (1/2) (1/2) 1 1 1 1 1 none 1).2.1
    (by rw [hrel]; norm_num)

/-! ### Projection equations for `ThomeDirect` -/

section ThomeProjections

variable (m x D rhol rhog mul mug kl kg Cpl Cpg Hvap sigma Psat Pc q : ℝ)

lemma ThomeDirect_G :
    (ThomeDirect m x D rhol rhog mul mug kl kg Cpl Cpg Hvap sigma Psat Pc q).G =
      m / (π / 4 * D ^ 2) := rfl

lemma ThomeDirect_qref :
    (ThomeDirect m x D rhol rhog mul mug kl kg Cpl Cpg Hvap sigma Psat Pc q).qref =
      3328 * (Psat / Pc) ^ (-0.5 : ℝ) := rfl

lemma ThomeDirect_fopt :
    (ThomeDirect m x D rhol rhog mul mug kl kg Cpl Cpg Hvap sigma Psat Pc q).fopt =
      (q / (ThomeDirect m x D rhol rhog mul mug kl kg Cpl Cpg Hvap sigma Psat Pc q).qref) ^
        (1.74 : ℝ) := rfl

lemma ThomeDirect_tau :
    (ThomeDirect m x D rhol rhog mul mug kl kg Cpl Cpg Hvap sigma Psat Pc q).tau =
      1 / (ThomeDirect m x D rhol rhog mul mug kl kg Cpl Cpg Hvap sigma Psat Pc q).fopt := rfl

lemma ThomeDirect_vp :
    (ThomeDirect m x D rhol rhog mul mug kl kg Cpl Cpg Hvap sigma Psat Pc q).vp =
      (ThomeDirect m x D rhol rhog mul mug kl kg Cpl Cpg Hvap sigma Psat Pc q).G *
        (x / rhog + (1 - x) / rhol) := rfl

lemma ThomeDirect_Bo :
    (ThomeDirect m x D rhol rhog mul mug kl kg Cpl Cpg Hvap sigma Psat Pc q).Bo =
      rhol * D / sigma *
        (ThomeDirect m x D rhol rhog mul mug kl kg Cpl Cpg Hvap sigma Psat Pc q).vp ^ 2 := rfl

lemma ThomeDirect_nul :
    (ThomeDirect m x D rhol rhog mul mug kl kg Cpl Cpg Hvap sigma Psat Pc q).nul =
      nu_mu_converter rhol mul := rfl

lemma ThomeDirect_delta0 :
    (ThomeDirect m x D rhol rhog mul mug kl kg Cpl Cpg Hvap sigma Psat Pc q).delta0 =
      D * 0.29 *
        (3 * ((ThomeDirect m x D rhol rhog mul mug kl kg Cpl Cpg Hvap sigma Psat Pc q).nul /
          (ThomeDirect m x D rhol rhog mul mug kl kg Cpl Cpg Hvap sigma Psat Pc q).vp / D) ^
            (0.5 : ℝ)) ^ (0.84 : ℝ) *
        ((0.07 *
          (ThomeDirect m x D rhol rhog mul mug kl kg Cpl Cpg Hvap sigma Psat Pc q).Bo ^
            (0.41 : ℝ)) ^ (-8 : ℤ) + (0.1 : ℝ) ^ (-8 : ℤ)) ^ (-(1 / 8) : ℝ) := rfl

lemma ThomeDirect_tl :
    (ThomeDirect m x D rhol rhog mul mug kl kg Cpl Cpg Hvap sigma Psat Pc q).tl =
      (ThomeDirect m x D rhol rhog mul mug kl kg Cpl Cpg Hvap sigma Psat Pc q).tau /
        (1 + rhol / rhog * (x / (1 - x))) := rfl

lemma ThomeDirect_tv :
    (ThomeDirect m x D rhol rhog mul mug kl kg Cpl Cpg Hvap sigma Psat Pc q).tv =
      (ThomeDirect m x D rhol rhog mul mug kl kg Cpl Cpg Hvap sigma Psat Pc q).tau /
        (1 + rhog / rhol * ((1 - x) / x)) := rfl

lemma ThomeDirect_t_dry_film :
    (ThomeDirect m x D rhol rhog mul mug kl kg Cpl Cpg Hvap sigma Psat Pc q).t_dry_film =
      rhol * Hvap / q *
        ((ThomeDirect m x D rhol rhog mul mug kl kg Cpl Cpg Hvap sigma Psat Pc q).delta0 -
          0.3e-6) := rfl

lemma ThomeDirect_t_film :
    (ThomeDirect m x D rhol rhog mul mug kl kg Cpl Cpg Hvap sigma Psat Pc q).t_film =
      if (ThomeDirect m x D rhol rhog mul mug kl kg Cpl Cpg Hvap sigma Psat Pc q).t_dry_film >
          (ThomeDirect m x D rhol rhog mul mug kl kg Cpl Cpg Hvap sigma Psat Pc q).tv
      then (ThomeDirect m x D rhol rhog mul mug kl kg Cpl Cpg Hvap sigma Psat Pc q).tv
      else (ThomeDirect m x D rhol rhog mul mug kl kg Cpl Cpg Hvap sigma Psat Pc q).t_dry_film :=
  rfl

lemma ThomeDirect_delta_end :
    (ThomeDirect m x D rhol rhog mul mug kl kg Cpl Cpg Hvap sigma Psat Pc q).delta_end =
      if (ThomeDirect m x D rhol rhog mul mug kl kg Cpl Cpg Hvap sigma Psat Pc q).t_dry_film >
          (ThomeDirect m x D rhol rhog mul mug kl kg Cpl Cpg Hvap sigma Psat Pc q).tv
      then (ThomeDirect m x D rhol rhog mul mug kl kg Cpl Cpg Hvap sigma Psat Pc q).delta0 -
        q / rhol / Hvap *
          (ThomeDirect m x D rhol rhog mul mug kl kg Cpl Cpg Hvap sigma Psat Pc q).tv
      else 0.3e-6 := rfl

lemma ThomeDirect_t_dry :
    (ThomeDirect m x D rhol rhog mul mug kl kg Cpl Cpg Hvap sigma Psat Pc q).t_dry =
      if (ThomeDirect m x D rhol rhog mul mug kl kg Cpl Cpg Hvap sigma Psat Pc q).t_dry_film >
          (ThomeDirect m x D rhol rhog mul mug kl kg Cpl Cpg Hvap sigma Psat Pc q).tv
      then 0
      else (ThomeDirect m x D rhol rhog mul mug kl kg Cpl Cpg Hvap sigma Psat Pc q).tv -
        (ThomeDirect m x D rhol rhog mul mug kl kg Cpl Cpg Hvap sigma Psat Pc q).t_dry_film :=
  rfl

lemma ThomeDirect_Ldry :
    (ThomeDirect m x D rhol rhog mul mug kl kg Cpl Cpg Hvap sigma Psat Pc q).Ldry =
      (ThomeDirect m x D rhol rhog mul mug kl kg Cpl Cpg Hvap sigma Psat Pc q).t_dry *
        (ThomeDirect m x D rhol rhog mul mug kl kg Cpl Cpg Hvap sigma Psat Pc q).vp := rfl

lemma ThomeDirect_Nu_lam_Zg :
    (ThomeDirect m x D rhol rhog mul mug kl kg Cpl Cpg Hvap sigma Psat Pc q).Nu_lam_Zg =
      if (ThomeDirect m x D rhol rhog mul mug kl kg Cpl Cpg Hvap sigma Psat Pc q).Ldry = 0
      then 0
      else 2 * 0.455 *
        (ThomeDirect m x D rhol rhog mul mug kl kg Cpl Cpg Hvap sigma Psat Pc q).Prg ^
          ((1 : ℝ) / 3) *
        (D * (ThomeDirect m x D rhol rhog mul mug kl kg Cpl Cpg Hvap sigma Psat Pc q).Reg /
          (ThomeDirect m x D rhol rhog mul mug kl kg Cpl Cpg Hvap sigma Psat Pc q).Ldry) ^
            (0.5 : ℝ) := rfl

lemma ThomeDirect_Nu_trans_Zg :
    (ThomeDirect m x D rhol rhog mul mug kl kg Cpl Cpg Hvap sigma Psat Pc q).Nu_trans_Zg =
      if (ThomeDirect m x D rhol rhog mul mug kl kg Cpl Cpg Hvap sigma Psat Pc q).Ldry = 0
      then 0
      else turbulent_Gnielinski
        (ThomeDirect m x D rhol rhog mul mug kl kg Cpl Cpg Hvap sigma Psat Pc q).Reg
        (ThomeDirect m x D rhol rhog mul mug kl kg Cpl Cpg Hvap sigma Psat Pc q).Prg
        (ThomeDirect m x D rhol rhog mul mug kl kg Cpl Cpg Hvap sigma Psat Pc q).fg *
        (1 + (D /
          (ThomeDirect m x D rhol rhog mul mug kl kg Cpl Cpg Hvap sigma Psat Pc q).Ldry) ^
            ((2 : ℝ) / 3)) := rfl

lemma ThomeDirect_h_Zg :
    (ThomeDirect m x D rhol rhog mul mug kl kg Cpl Cpg Hvap sigma Psat Pc q).h_Zg =
      kg / D *
        ((ThomeDirect m x D rhol rhog mul mug kl kg Cpl Cpg Hvap sigma Psat Pc q).Nu_lam_Zg ^ 4 +
          (ThomeDirect m x D rhol rhog mul mug kl kg Cpl Cpg Hvap sigma Psat Pc q).Nu_trans_Zg ^ 4) ^
          (0.25 : ℝ) := rfl

lemma ThomeDirect_h_film :
    (ThomeDirect m x D rhol rhog mul mug kl kg Cpl Cpg Hvap sigma Psat Pc q).h_film =
      2 * kl /
        ((ThomeDirect m x D rhol rhog mul mug kl kg Cpl Cpg Hvap sigma Psat Pc q).delta0 +
          0.3e-6) := rfl

lemma ThomeDirect_h :
    (ThomeDirect m x D rhol rhog mul mug kl kg Cpl Cpg Hvap sigma Psat Pc q).h =
      (ThomeDirect m x D rhol rhog mul mug kl kg Cpl Cpg Hvap sigma Psat Pc q).tl /
        (ThomeDirect m x D rhol rhog mul mug kl kg Cpl Cpg Hvap sigma Psat Pc q).tau *
        (ThomeDirect m x D rhol rhog mul mug kl kg Cpl Cpg Hvap sigma Psat Pc q).h_Zl +
      (ThomeDirect m x D rhol rhog mul mug kl kg Cpl Cpg Hvap sigma Psat Pc q).t_film /
        (ThomeDirect m x D rhol rhog mul mug kl kg Cpl Cpg Hvap sigma Psat Pc q).tau *
        (ThomeDirect m x D rhol rhog mul mug kl kg Cpl Cpg Hvap sigma Psat Pc q).h_film +
      (ThomeDirect m x D rhol rhog mul mug kl kg Cpl Cpg Hvap sigma Psat Pc q).t_dry /
        (ThomeDirect m x D rhol rhog mul mug kl kg Cpl Cpg Hvap sigma Psat Pc q).tau *
        (ThomeDirect m x D rhol rhog mul mug kl kg Cpl Cpg Hvap sigma Psat Pc q).h_Zg := rfl

end ThomeProjections

/-! ### Claim C3: zero dry-zone length -/

/-- C3: in `Thome`'s heat-flux path, whenever the dry-zone length `Ldry` is
zero, both the laminar and turbulent vapor Nusselt contributions are exactly
0 (they are not evaluated), the vapor-phase coefficient is 0, and the
returned coefficient reduces to the liquid and film terms alone. -/
theorem thome_dry_zone_zero
    (m x D rhol rhog mul mug kl kg Cpl Cpg Hvap sigma Psat Pc q : ℝ)
    (h0 : (ThomeDirect m x D rhol rhog mul mug kl kg Cpl Cpg Hvap sigma Psat Pc q).Ldry = 0) :
    (ThomeDirect m x D rhol rhog mul mug kl kg Cpl Cpg Hvap sigma Psat Pc q).Nu_lam_Zg = 0
    ∧ (ThomeDirect m x D rhol rhog mul mug kl kg Cpl Cpg Hvap sigma Psat Pc q).Nu_trans_Zg = 0
    ∧ (ThomeDirect m x D rhol rhog mul mug kl kg Cpl Cpg Hvap sigma Psat Pc q).h_Zg = 0
    ∧ (ThomeDirect m x D rhol rhog mul mug kl kg Cpl Cpg Hvap sigma Psat Pc q).h =
      (ThomeDirect m x D rhol rhog mul mug kl kg Cpl Cpg Hvap sigma Psat Pc q).tl /
        (ThomeDirect m x D rhol rhog mul mug kl kg Cpl Cpg Hvap sigma Psat Pc q).tau *
        (ThomeDirect m x D rhol rhog mul mug kl kg Cpl Cpg Hvap sigma Psat Pc q).h_Zl +
      (ThomeDirect m x D rhol rhog mul mug kl kg Cpl Cpg Hvap sigma Psat Pc q).t_film /
        (ThomeDirect m x D rhol rhog mul mug kl kg Cpl Cpg Hvap sigma Psat Pc q).tau *
        (ThomeDirect m x D rhol rhog mul mug kl kg Cpl Cpg Hvap sigma Psat Pc q).h_film := by
  have hlam :
      (ThomeDirect m x D rhol rhog mul mug kl kg Cpl Cpg Hvap sigma Psat Pc q).Nu_lam_Zg = 0 := by
    rw [ThomeDirect_Nu_lam_Zg, if_pos h0]
  have htrans :
      (ThomeDirect m x D rhol rhog mul mug kl kg Cpl Cpg Hvap sigma Psat Pc q).Nu_trans_Zg = 0 := by
    rw [ThomeDirect_Nu_trans_Zg, if_pos h0]
  have hZg :
      (ThomeDirect m x D rhol rhog mul mug kl kg Cpl Cpg Hvap sigma Psat Pc q).h_Zg = 0 := by
    rw [ThomeDirect_h_Zg, hlam, htrans]
    norm_num
  refine ⟨hlam, htrans, hZg, ?_⟩
  rw [ThomeDirect_h, hZg, mul_zero, add_zero]

/-- C3 witness: a concrete call whose dry-zone length is zero. -/
theorem thome_dry_zone_zero_witness :
    (ThomeDirect 0 (1/2) 1 1 1 1 1 1 1 1 1 1 1 1 1 1).Nu_lam_Zg = 0
    ∧ (ThomeDirect 0 (1/2) 1 1 1 1 1 1 1 1 1 1 1 1 1 1).Nu_trans_Zg = 0
    ∧ (ThomeDirect 0 (1/2) 1 1 1 1 1 1 1 1 1 1 1 1 1 1).h_Zg = 0
    ∧ (ThomeDirect 0 (1/2) 1 1 1 1 1 1 1 1 1 1 1 1 1 1).h =
      (ThomeDirect 0 (1/2) 1 1 1 1 1 1 1 1 1 1 1 1 1 1).tl /
        (ThomeDirect 0 (1/2) 1 1 1 1 1 1 1 1 1 1 1 1 1 1).tau *
        (ThomeDirect 0 (1/2) 1 1 1 1 1 1 1 1 1 1 1 1 1 1).h_Zl +
      (ThomeDirect 0 (1/2) 1 1 1 1 1 1 1 1 1 1 1 1 1 1).t_film /
        (ThomeDirect 0 (1/2) 1 1 1 1 1 1 1 1 1 1 1 1 1 1).tau *
        (ThomeDirect 0 (1/2) 1 1 1 1 1 1 1 1 1 1 1 1 1 1).h_film := by
  have hvp : (ThomeDirect 0 (1/2) 1 1 1 1 1 1 1 1 1 1 1 1 1 1).vp = 0 := by
    rw [ThomeDirect_vp, ThomeDirect_G]
    norm_num
  have h0 : (ThomeDirect 0 (1/2) 1 1 1 1 1 1 1 1 1 1 1 1 1 1).Ldry = 0 := by
    rw [ThomeDirect_Ldry, hvp, mul_zero]
  exact thome_dry_zone_zero 0 (1/2) 1 1 1 1 1 1 1 1 1 1 1 1 1 1 h0

/-! ### Claim C2: phase durations -/

/-- The algebraic core of the liquid/vapor time split: the two durations are
complementary fractions of the period. -/
lemma phase_time_split (T rl rg xx : ℝ) (hx0 : 0 < xx) (hx1 : xx < 1)
    (hrl : 0 < rl) (hrg : 0 < rg) :
    T / (1 + rl / rg * (xx / (1 - xx))) + T / (1 + rg / rl * ((1 - xx) / xx)) = T := by
  have h1x : (0:ℝ) < 1 - xx := by linarith
  have hA : (0:ℝ) < 1 + rl / rg * (xx / (1 - xx)) := by
    have := mul_pos (div_pos hrl hrg) (div_pos hx0 h1x)
    linarith
  have hB : (0:ℝ) < 1 + rg / rl * ((1 - xx) / xx) := by
    have := mul_pos (div_pos hrg hrl) (div_pos h1x hx0)
    linarith
  field_simp
  ring

/-- C2 amended: in `Thome`'s heat-flux path with quality strictly in (0,1),
the three phase durations sum to the cycle period in both branches of the
dry-out decision (equivalently `t_liquid + t_vapor = tau` and
`t_film + t_dry = t_vapor`), the period is positive, the three time weights
sum to 1, and the returned coefficient is the corresponding time-weighted
combination of the three phase coefficients.  (The combination need not be
convex: `t_film` can be negative when the initial film thickness is below
the minimum film thickness constant.) -/
theorem thome_phase_time_sum
    (m x D rhol rhog mul mug kl kg Cpl Cpg Hvap sigma Psat Pc q : ℝ)
    (hx0 : 0 < x) (hx1 : x < 1) (hrl : 0 < rhol) (hrg : 0 < rhog)
    (hq : 0 < q) (hPsat : 0 < Psat) (hPc : 0 < Pc) :
    (ThomeDirect m x D rhol rhog mul mug kl kg Cpl Cpg Hvap sigma Psat Pc q).tl +
      (ThomeDirect m x D rhol rhog mul mug kl kg Cpl Cpg Hvap sigma Psat Pc q).t_film +
      (ThomeDirect m x D rhol rhog mul mug kl kg Cpl Cpg Hvap sigma Psat Pc q).t_dry =
      (ThomeDirect m x D rhol rhog mul mug kl kg Cpl Cpg Hvap sigma Psat Pc q).tau
    ∧ (ThomeDirect m x D rhol rhog mul mug kl kg Cpl Cpg Hvap sigma Psat Pc q).tl +
      (ThomeDirect m x D rhol rhog mul mug kl kg Cpl Cpg Hvap sigma Psat Pc q).tv =
      (ThomeDirect m x D rhol rhog mul mug kl kg Cpl Cpg Hvap sigma Psat Pc q).tau
    ∧ (ThomeDirect m x D rhol rhog mul mug kl kg Cpl Cpg Hvap sigma Psat Pc q).t_film +
      (ThomeDirect m x D rhol rhog mul mug kl kg Cpl Cpg Hvap sigma Psat Pc q).t_dry =
      (ThomeDirect m x D rhol rhog mul mug kl kg Cpl Cpg Hvap sigma Psat Pc q).tv
    ∧ 0 < (ThomeDirect m x D rhol rhog mul mug kl kg Cpl Cpg Hvap sigma Psat Pc q).tau
    ∧ (ThomeDirect m x D rhol rhog mul mug kl kg Cpl Cpg Hvap sigma Psat Pc q).tl /
        (ThomeDirect m x D rhol rhog mul mug kl kg Cpl Cpg Hvap sigma Psat Pc q).tau +
      (ThomeDirect m x D rhol rhog mul mug kl kg Cpl Cpg Hvap sigma Psat Pc q).t_film /
        (ThomeDirect m x D rhol rhog mul mug kl kg Cpl Cpg Hvap sigma Psat Pc q).tau +
      (ThomeDirect m x D rhol rhog mul mug kl kg Cpl Cpg Hvap sigma Psat Pc q).t_dry /
        (ThomeDirect m x D rhol rhog mul mug kl kg Cpl Cpg Hvap sigma Psat Pc q).tau = 1
    ∧ (ThomeDirect m x D rhol rhog mul mug kl kg Cpl Cpg Hvap sigma Psat Pc q).h =
      (ThomeDirect m x D rhol rhog mul mug kl kg Cpl Cpg Hvap sigma Psat Pc q).tl /
        (ThomeDirect m x D rhol rhog mul mug kl kg Cpl Cpg Hvap sigma Psat Pc q).tau *
        (ThomeDirect m x D rhol rhog mul mug kl kg Cpl Cpg Hvap sigma Psat Pc q).h_Zl +
      (ThomeDirect m x D rhol rhog mul mug kl kg Cpl Cpg Hvap sigma Psat Pc q).t_film /
        (ThomeDirect m x D rhol rhog mul mug kl kg Cpl Cpg Hvap sigma Psat Pc q).tau *
        (ThomeDirect m x D rhol rhog mul mug kl kg Cpl Cpg Hvap sigma Psat Pc q).h_film +
      (ThomeDirect m x D rhol rhog mul mug kl kg Cpl Cpg Hvap sigma Psat Pc q).t_dry /
        (ThomeDirect m x D rhol rhog mul mug kl kg Cpl Cpg Hvap sigma Psat Pc q).tau *
        (ThomeDirect m x D rhol rhog mul mug kl kg Cpl Cpg Hvap sigma Psat Pc q).h_Zg := by
  have hB : (ThomeDirect m x D rhol rhog mul mug kl kg Cpl Cpg Hvap sigma Psat Pc q).tl +
      (ThomeDirect m x D rhol rhog mul mug kl kg Cpl Cpg Hvap sigma Psat Pc q).tv =
      (ThomeDirect m x D rhol rhog mul mug kl kg Cpl Cpg Hvap sigma Psat Pc q).tau := by
    rw [ThomeDirect_tl, ThomeDirect_tv]
    exact phase_time_split _ rhol rhog x hx0 hx1 hrl hrg
  have hC : (ThomeDirect m x D rhol rhog mul mug kl kg Cpl Cpg Hvap sigma Psat Pc q).t_film +
      (ThomeDirect m x D rhol rhog mul mug kl kg Cpl Cpg Hvap sigma Psat Pc q).t_dry =
      (ThomeDirect m x D rhol rhog mul mug kl kg Cpl Cpg Hvap sigma Psat Pc q).tv := by
    rw [ThomeDirect_t_film, ThomeDirect_t_dry]
    split_ifs with h
    · ring
    · ring
  have hA : (ThomeDirect m x D rhol rhog mul mug kl kg Cpl Cpg Hvap sigma Psat Pc q).tl +
      (ThomeDirect m x D rhol rhog mul mug kl kg Cpl Cpg Hvap sigma Psat Pc q).t_film +
      (ThomeDirect m x D rhol rhog mul mug kl kg Cpl Cpg Hvap sigma Psat Pc q).t_dry =
      (ThomeDirect m x D rhol rhog mul mug kl kg Cpl Cpg Hvap sigma Psat Pc q).tau := by
    linarith
  have hfopt : 0 < (ThomeDirect m x D rhol rhog mul mug kl kg Cpl Cpg Hvap sigma Psat Pc q).fopt := by
    rw [ThomeDirect_fopt, ThomeDirect_qref]
    apply Real.rpow_pos_of_pos
    have : (0:ℝ) < 3328 * (Psat / Pc) ^ (-0.5 : ℝ) := by positivity
    positivity
  have htau : 0 < (ThomeDirect m x D rhol rhog mul mug kl kg Cpl Cpg Hvap sigma Psat Pc q).tau := by
    rw [ThomeDirect_tau]
    exact one_div_pos.mpr hfopt
  refine ⟨hA, hB, hC, htau, ?_, ThomeDirect_h _ _ _ _ _ _ _ _ _ _ _ _ _ _ _ _⟩
  rw [div_add_div_same, div_add_div_same, hA]
  exact div_self htau.ne'

/-- C2 amended, witness at a concrete input. -/
theorem thome_phase_time_sum_witness :
    (ThomeDirect 1 (1/2) 1 1 1 1 1 1 1 1 1 1 1 1 1 1).tl +
      (ThomeDirect 1 (1/2) 1 1 1 1 1 1 1 1 1 1 1 1 1 1).t_film +
      (ThomeDirect 1 (1/2) 1 1 1 1 1 1 1 1 1 1 1 1 1 1).t_dry =
      (ThomeDirect 1 (1/2) 1 1 1 1 1 1 1 1 1 1 1 1 1 1).tau
    ∧ 0 < (ThomeDirect 1 (1/2) 1 1 1 1 1 1 1 1 1 1 1 1 1 1).tau :=
  ⟨(thome_phase_time_sum 1 (1/2) 1 1 1 1 1 1 1 1 1 1 1 1 1 1 (by norm_num)
      (by norm_num) (by norm_num) (by norm_num) (by norm_num) (by norm_num)
      (by norm_num)).1,
   (thome_phase_time_sum 1 (1/2) 1 1 1 1 1 1 1 1 1 1 1 1 1 1 (by norm_num)
      (by norm_num) (by norm_num) (by norm_num) (by norm_num) (by norm_num)
      (by norm_num)).2.2.2.1⟩

/-! ### Claim C1: the film-phase coefficient -/

/-- C1 amended: in `Thome`'s heat-flux path the film coefficient is always
`2 k_l / (delta0 + delta_min)` with `delta_min = 0.3e-6` the minimum film
thickness constant, in both branches of the dry-out decision.  When the film
dries out before the vapor period ends (`t_dry_film ≤ t_vapor`) the
end-of-cycle thickness equals that constant and the claimed form
`2 k_l / (delta0 + delta_end)` coincides with the code; in the other branch
`delta_end = delta0 - q/(rhol*Hvap)*t_vapor` is computed but is not used in
the film coefficient. -/
theorem thome_h_film_amended
    (m x D rhol rhog mul mug kl kg Cpl Cpg Hvap sigma Psat Pc q : ℝ) :
    (ThomeDirect m x D rhol rhog mul mug kl kg Cpl Cpg Hvap sigma Psat Pc q).h_film =
      2 * kl /
        ((ThomeDirect m x D rhol rhog mul mug kl kg Cpl Cpg Hvap sigma Psat Pc q).delta0 +
          0.3e-6)
    ∧ ((ThomeDirect m x D rhol rhog mul mug kl kg Cpl Cpg Hvap sigma Psat Pc q).t_dry_film ≤
        (ThomeDirect m x D rhol rhog mul mug kl kg Cpl Cpg Hvap sigma Psat Pc q).tv →
      (ThomeDirect m x D rhol rhog mul mug kl kg Cpl Cpg Hvap sigma Psat Pc q).delta_end =
        0.3e-6
      ∧ (ThomeDirect m x D rhol rhog mul mug kl kg Cpl Cpg Hvap sigma Psat Pc q).h_film =
        2 * kl /
          ((ThomeDirect m x D rhol rhog mul mug kl kg Cpl Cpg Hvap sigma Psat Pc q).delta0 +
            (ThomeDirect m x D rhol rhog mul mug kl kg Cpl Cpg Hvap sigma Psat Pc q).delta_end))
    ∧ ((ThomeDirect m x D rhol rhog mul mug kl kg Cpl Cpg Hvap sigma Psat Pc q).tv <
        (ThomeDirect m x D rhol rhog mul mug kl kg Cpl Cpg Hvap sigma Psat Pc q).t_dry_film →
      (ThomeDirect m x D rhol rhog mul mug kl kg Cpl Cpg Hvap sigma Psat Pc q).delta_end =
        (ThomeDirect m x D rhol rhog mul mug kl kg Cpl Cpg Hvap sigma Psat Pc q).delta0 -
          q / rhol / Hvap *
            (ThomeDirect m x D rhol rhog mul mug kl kg Cpl Cpg Hvap sigma Psat Pc q).tv) := by
  refine ⟨ThomeDirect_h_film _ _ _ _ _ _ _ _ _ _ _ _ _ _ _ _, fun h => ?_, fun h => ?_⟩
  · have he : (ThomeDirect m x D rhol rhog mul mug kl kg Cpl Cpg Hvap sigma Psat Pc q).delta_end =
        0.3e-6 := by
      rw [ThomeDirect_delta_end, if_neg (not_lt.2 h)]
    refine ⟨he, ?_⟩
    rw [he, ThomeDirect_h_film]
  · rw [ThomeDirect_delta_end, if_pos h]

/-- C1 amended, witness: a concrete call in the dry-out branch, where the
end-of-cycle thickness is the constant and the claimed film-coefficient
form agrees with the code. -/
theorem thome_h_film_amended_witness :
    (ThomeDirect 0 (1/2) 1 1 1 1 1 1 1 1 1 1 1 1 1 1).delta_end = 0.3e-6
    ∧ (ThomeDirect 0 (1/2) 1 1 1 1 1 1 1 1 1 1 1 1 1 1).h_film =
      2 * 1 /
        ((ThomeDirect 0 (1/2) 1 1 1 1 1 1 1 1 1 1 1 1 1 1).delta0 +
          (ThomeDirect 0 (1/2) 1 1 1 1 1 1 1 1 1 1 1 1 1 1).delta_end) := by
  have hd0 : (ThomeDirect 0 (1/2) 1 1 1 1 1 1 1 1 1 1 1 1 1 1).delta0 = 0 := by
    rw [ThomeDirect_delta0, ThomeDirect_nul, ThomeDirect_vp, ThomeDirect_G]
    norm_num [nu_mu_converter]
  have hfopt : 0 < (ThomeDirect 0 (1/2) 1 1 1 1 1 1 1 1 1 1 1 1 1 1).fopt := by
    rw [ThomeDirect_fopt, ThomeDirect_qref]
    apply Real.rpow_pos_of_pos
    norm_num
  have htau : 0 < (ThomeDirect 0 (1/2) 1 1 1 1 1 1 1 1 1 1 1 1 1 1).tau := by
    rw [ThomeDirect_tau]
    exact one_div_pos.mpr hfopt
  have htv : 0 < (ThomeDirect 0 (1/2) 1 1 1 1 1 1 1 1 1 1 1 1 1 1).tv := by
    rw [ThomeDirect_tv]
    norm_num
    linarith
  have hle : (ThomeDirect 0 (1/2) 1 1 1 1 1 1 1 1 1 1 1 1 1 1).t_dry_film ≤
      (ThomeDirect 0 (1/2) 1 1 1 1 1 1 1 1 1 1 1 1 1 1).tv := by
    rw [ThomeDirect_t_dry_film, hd0]
    have h1 : (1:ℝ) * 1 / 1 * (0 - 0.3e-6) < 0 := by norm_num
    linarith
  exact (thome_h_film_amended 0 (1/2) 1 1 1 1 1 1 1 1 1 1 1 1 1 1).2.1 hle

/-! ### Exact evaluation of `ThomeDirect` on a crafted family of valid inputs

The inputs `m = π/4·D²`, `x = 1/2`, `rhol = rhog = 1`, `mul = D/9`,
`mug = kl = kg = Cpl = Cpg = 1`, `Hvap = 10^6`, `sigma = D`, `Psat = 1`,
`Pc = 4`, `q = 6656` make the mass flux, phase velocity and modified Bond
number equal to 1 and the heat flux equal to the reference flux, so every
fractional power in the model evaluates exactly (or to an eighth root that
can be bounded by rationals). -/

lemma rpow_half_ninth : ((1:ℝ)/9) ^ (0.5:ℝ) = 1/3 := by
  rw [show ((1:ℝ)/9) = ((1:ℝ)/3) ^ (2:ℕ) by norm_num,
    show (0.5:ℝ) = ((2:ℕ):ℝ)⁻¹ by norm_num]
  exact Real.pow_rpow_inv_natCast (by norm_num) (by norm_num)

lemma rpow_neg_half_quarter : ((1:ℝ)/4) ^ (-0.5:ℝ) = 2 := by
  rw [show (-0.5:ℝ) = -(0.5:ℝ) by norm_num, Real.rpow_neg (by norm_num)]
  rw [show ((1:ℝ)/4) = ((1:ℝ)/2) ^ (2:ℕ) by norm_num,
    show (0.5:ℝ) = ((2:ℕ):ℝ)⁻¹ by norm_num,
    Real.pow_rpow_inv_natCast (by norm_num) (by norm_num)]
  norm_num

lemma bracket_lb : (13:ℝ)/200 ≤ ((10:ℝ) ^ 16 / 5764801 + 10 ^ 8) ^ (-(1/8) : ℝ) := by
  have hS : (0:ℝ) < 10 ^ 16 / 5764801 + 10 ^ 8 := by norm_num
  have h1 : ((10:ℝ) ^ 16 / 5764801 + 10 ^ 8) ≤ ((200:ℝ)/13) ^ (8:ℕ) := by norm_num
  have h2 : ((10:ℝ) ^ 16 / 5764801 + 10 ^ 8) ^ ((1/8):ℝ) ≤ (200:ℝ)/13 := by
    calc ((10:ℝ) ^ 16 / 5764801 + 10 ^ 8) ^ ((1/8):ℝ) ≤
        (((200:ℝ)/13) ^ (8:ℕ)) ^ ((1/8):ℝ) :=
          Real.rpow_le_rpow hS.le h1 (by norm_num)
      _ = (200:ℝ)/13 := by
          rw [show ((1:ℝ)/8) = ((8:ℕ):ℝ)⁻¹ by norm_num]
          exact Real.pow_rpow_inv_natCast (by norm_num) (by norm_num)
  have h3 : (0:ℝ) < ((10:ℝ) ^ 16 / 5764801 + 10 ^ 8) ^ ((1/8):ℝ) :=
    Real.rpow_pos_of_pos hS _
  rw [show (-(1/8) : ℝ) = -((1/8):ℝ) by norm_num, Real.rpow_neg hS.le]
  calc (13:ℝ)/200 = ((200:ℝ)/13)⁻¹ := by norm_num
    _ ≤ (((10:ℝ) ^ 16 / 5764801 + 10 ^ 8) ^ ((1/8):ℝ))⁻¹ := inv_anti₀ h3 h2

lemma bracket_ub : ((10:ℝ) ^ 16 / 5764801 + 10 ^ 8) ^ (-(1/8) : ℝ) ≤ 1/10 := by
  have hS : (0:ℝ) < 10 ^ 16 / 5764801 + 10 ^ 8 := by norm_num
  have h1 : ((10:ℝ)) ^ (8:ℕ) ≤ ((10:ℝ) ^ 16 / 5764801 + 10 ^ 8) := by norm_num
  have h2 : (10:ℝ) ≤ ((10:ℝ) ^ 16 / 5764801 + 10 ^ 8) ^ ((1/8):ℝ) := by
    calc (10:ℝ) = (((10:ℝ)) ^ (8:ℕ)) ^ ((1/8):ℝ) := by
          rw [show ((1:ℝ)/8) = ((8:ℕ):ℝ)⁻¹ by norm_num]
          exact (Real.pow_rpow_inv_natCast (by norm_num) (by norm_num)).symm
      _ ≤ ((10:ℝ) ^ 16 / 5764801 + 10 ^ 8) ^ ((1/8):ℝ) :=
          Real.rpow_le_rpow (by positivity) h1 (by norm_num)
  rw [show (-(1/8) : ℝ) = -((1/8):ℝ) by norm_num, Real.rpow_neg hS.le]
  calc (((10:ℝ) ^ 16 / 5764801 + 10 ^ 8) ^ ((1/8):ℝ))⁻¹ ≤ (10:ℝ)⁻¹ :=
        inv_anti₀ (by norm_num) h2
    _ = 1/10 := by norm_num

section ThomeProbe

variable {D : ℝ}

lemma probe_G (hD : 0 < D) :
    (ThomeDirect (π/4*D^2) (1/2) D 1 1 (D/9) 1 1 1 1 1 1000000 D 1 4 6656).G = 1 := by
  rw [ThomeDirect_G]
  exact div_self (by positivity)

lemma probe_vp (hD : 0 < D) :
    (ThomeDirect (π/4*D^2) (1/2) D 1 1 (D/9) 1 1 1 1 1 1000000 D 1 4 6656).vp = 1 := by
  rw [ThomeDirect_vp, probe_G hD]
  norm_num

lemma probe_Bo (hD : 0 < D) :
    (ThomeDirect (π/4*D^2) (1/2) D 1 1 (D/9) 1 1 1 1 1 1000000 D 1 4 6656).Bo = 1 := by
  rw [ThomeDirect_Bo, probe_vp hD]
  field_simp

lemma probe_delta0 (hD : 0 < D) :
    (ThomeDirect (π/4*D^2) (1/2) D 1 1 (D/9) 1 1 1 1 1 1000000 D 1 4 6656).delta0 =
      D * 0.29 * ((10:ℝ) ^ 16 / 5764801 + 10 ^ 8) ^ (-(1/8) : ℝ) := by
  rw [ThomeDirect_delta0, ThomeDirect_nul, probe_vp hD, probe_Bo hD, nu_mu_converter]
  have h1 : D / 9 / 1 / 1 / D = 1/9 := by
    field_simp
    ring
  rw [h1, rpow_half_ninth]
  norm_num [Real.one_rpow]

lemma probe_delta0_lb (hD : 0 < D) :
    0.29 * (13/200) * D ≤
      (ThomeDirect (π/4*D^2) (1/2) D 1 1 (D/9) 1 1 1 1 1 1000000 D 1 4 6656).delta0 := by
  rw [probe_delta0 hD]
  have h := mul_le_mul_of_nonneg_left bracket_lb
    (show (0:ℝ) ≤ D * 0.29 by positivity)
  linarith

lemma probe_delta0_ub (hD : 0 < D) :
    (ThomeDirect (π/4*D^2) (1/2) D 1 1 (D/9) 1 1 1 1 1 1000000 D 1 4 6656).delta0 ≤
      0.29 * (1/10) * D := by
  rw [probe_delta0 hD]
  have h := mul_le_mul_of_nonneg_left bracket_ub
    (show (0:ℝ) ≤ D * 0.29 by positivity)
  linarith

lemma probe_qref :
    (ThomeDirect (π/4*D^2) (1/2) D 1 1 (D/9) 1 1 1 1 1 1000000 D 1 4 6656).qref = 6656 := by
  rw [ThomeDirect_qref, rpow_neg_half_quarter]
  norm_num

lemma probe_fopt :
    (ThomeDirect (π/4*D^2) (1/2) D 1 1 (D/9) 1 1 1 1 1 1000000 D 1 4 6656).fopt = 1 := by
  rw [ThomeDirect_fopt, probe_qref]
  norm_num [Real.one_rpow]

lemma probe_tau :
    (ThomeDirect (π/4*D^2) (1/2) D 1 1 (D/9) 1 1 1 1 1 1000000 D 1 4 6656).tau = 1 := by
  rw [ThomeDirect_tau, probe_fopt]
  norm_num

lemma probe_tv :
    (ThomeDirect (π/4*D^2) (1/2) D 1 1 (D/9) 1 1 1 1 1 1000000 D 1 4 6656).tv = 1/2 := by
  rw [ThomeDirect_tv, probe_tau]
  norm_num

end ThomeProbe

/-- C1 counterexample: at the valid heat-flux-specified input with `D = 1`
(`m = π/4`, `x = 1/2`, unit densities, `mul = 1/9`, `sigma = 1`,
`Hvap = 10^6`, `Psat/Pc = 1/4`, `q = 6656`), the film survives the whole
vapor period, the end-of-cycle thickness is `delta0 - q/(rhol·Hvap)·t_vapor`,
and the code's film coefficient `2·kl/(delta0 + delta_min)` differs from the
claimed `2·kl/(delta0 + delta_end)`. -/
theorem thome_h_film_cex :
    ¬ ((ThomeDirect (π/4*1^2) (1/2) 1 1 1 (1/9) 1 1 1 1 1 1000000 1 1 4 6656).h_film =
      2 * 1 /
        ((ThomeDirect (π/4*1^2) (1/2) 1 1 1 (1/9) 1 1 1 1 1 1000000 1 1 4 6656).delta0 +
          (ThomeDirect (π/4*1^2) (1/2) 1 1 1 (1/9) 1 1 1 1 1 1000000 1 1 4 6656).delta_end)) := by
  intro h
  have hD : (0:ℝ) < 1 := by norm_num
  have hlb := probe_delta0_lb hD
  have htv := probe_tv (D := 1)
  have hbranch :
      (ThomeDirect (π/4*1^2) (1/2) 1 1 1 (1/9) 1 1 1 1 1 1000000 1 1 4 6656).tv <
      (ThomeDirect (π/4*1^2) (1/2) 1 1 1 (1/9) 1 1 1 1 1 1000000 1 1 4 6656).t_dry_film := by
    rw [ThomeDirect_t_dry_film, htv]
    have h1 : (1:ℝ) * 1000000 / 6656 = 15625/104 := by norm_num
    nlinarith [hlb]
  have hde :
      (ThomeDirect (π/4*1^2) (1/2) 1 1 1 (1/9) 1 1 1 1 1 1000000 1 1 4 6656).delta_end =
      (ThomeDirect (π/4*1^2) (1/2) 1 1 1 (1/9) 1 1 1 1 1 1000000 1 1 4 6656).delta0 -
        6656 / 1 / 1000000 *
          (ThomeDirect (π/4*1^2) (1/2) 1 1 1 (1/9) 1 1 1 1 1 1000000 1 1 4 6656).tv := by
    rw [ThomeDirect_delta_end, if_pos hbranch]
  rw [ThomeDirect_h_film, hde, htv] at h
  have ha : (0:ℝ) <
      (ThomeDirect (π/4*1^2) (1/2) 1 1 1 (1/9) 1 1 1 1 1 1000000 1 1 4 6656).delta0 +
        0.3e-6 := by linarith
  have hb : (0:ℝ) <
      (ThomeDirect (π/4*1^2) (1/2) 1 1 1 (1/9) 1 1 1 1 1 1000000 1 1 4 6656).delta0 +
        ((ThomeDirect (π/4*1^2) (1/2) 1 1 1 (1/9) 1 1 1 1 1 1000000 1 1 4 6656).delta0 -
          6656 / 1 / 1000000 * (1/2)) := by linarith
  rw [div_eq_div_iff ha.ne' hb.ne'] at h
  nlinarith [hlb, h]

/-- C2 counterexample: at the valid heat-flux-specified input with
`D = 10^-6` the initial film thickness is below the minimum film thickness
constant, so the film-drying time — and with it the film-phase duration and
its time weight — is negative: the returned coefficient is not a convex
combination of the three phase coefficients. -/
theorem thome_phase_time_convexity_cex :
    (ThomeDirect (π/4*(1e-6:ℝ)^2) (1/2) 1e-6 1 1 (1e-6/9) 1 1 1 1 1 1000000 1e-6 1 4
        6656).t_film < 0
    ∧ (ThomeDirect (π/4*(1e-6:ℝ)^2) (1/2) 1e-6 1 1 (1e-6/9) 1 1 1 1 1 1000000 1e-6 1 4
        6656).t_film /
      (ThomeDirect (π/4*(1e-6:ℝ)^2) (1/2) 1e-6 1 1 (1e-6/9) 1 1 1 1 1 1000000 1e-6 1 4
        6656).tau < 0 := by
  have hD : (0:ℝ) < 1e-6 := by norm_num
  have hub := probe_delta0_ub hD
  have hlb := probe_delta0_lb hD
  have htv := probe_tv (D := (1e-6:ℝ))
  have htau := probe_tau (D := (1e-6:ℝ))
  have htdf :
      (ThomeDirect (π/4*(1e-6:ℝ)^2) (1/2) 1e-6 1 1 (1e-6/9) 1 1 1 1 1 1000000 1e-6 1 4
        6656).t_dry_film < 0 := by
    rw [ThomeDirect_t_dry_film]
    nlinarith [hub]
  have hnb :
      ¬ ((ThomeDirect (π/4*(1e-6:ℝ)^2) (1/2) 1e-6 1 1 (1e-6/9) 1 1 1 1 1 1000000 1e-6 1 4
          6656).t_dry_film >
        (ThomeDirect (π/4*(1e-6:ℝ)^2) (1/2) 1e-6 1 1 (1e-6/9) 1 1 1 1 1 1000000 1e-6 1 4
          6656).tv) := by
    rw [htv]
    linarith
  have hfilm :
      (ThomeDirect (π/4*(1e-6:ℝ)^2) (1/2) 1e-6 1 1 (1e-6/9) 1 1 1 1 1 1000000 1e-6 1 4
        6656).t_film < 0 := by
    rw [ThomeDirect_t_film, if_neg hnb]
    exact htdf
  refine ⟨hfilm, ?_⟩
  rw [htau]
  linarith

/-! ### Claim C9: positivity of the non-boiling correlations -/

lemma OptPos_some {v : ℝ} (hv : 0 < v) : OptPos (some v) :=
  fun _ hw => Option.some.inj hw ▸ hv

lemma OptPos_none : OptPos (none : Option ℝ) := fun _ h => Option.noConfusion h

lemma Davis_David_pos (m x D rhol rhog Cpl kl mul : ℝ) (hm : 0 < m) (hx : 0 < x)
    (hD : 0 < D) (hrl : 0 < rhol) (hrg : 0 < rhog) (hCpl : 0 < Cpl)
    (hkl : 0 < kl) (hmul : 0 < mul) :
    0 < Davis_David m x D rhol rhog Cpl kl mul := by
  unfold Davis_David Prandtl
  positivity

lemma Elamvaluthi_Srinivas_pos (m x D rhol rhog Cpl kl mug mu_b : ℝ)
    (mu_w : Option ℝ) (hm : 0 < m) (hx : 0 < x) (hx1 : x < 1) (hD : 0 < D)
    (hrl : 0 < rhol) (hrg : 0 < rhog) (hCpl : 0 < Cpl) (hkl : 0 < kl)
    (hmug : 0 < mug) (hmub : 0 < mu_b) (hw : OptPos mu_w) :
    0 < Elamvaluthi_Srinivas m x D rhol rhog Cpl kl mug mu_b mu_w := by
  have h1x : (0:ℝ) < 1 - x := by linarith
  simp only [Elamvaluthi_Srinivas, Prandtl]
  rcases mu_w with _ | w
  · rw [if_neg truthy_none]
    set u := 1 - x
    positivity
  · have hw0 : 0 < w := hw w rfl
    rw [if_pos (truthy_some.mpr hw0.ne')]
    simp only [Option.getD_some]
    set u := 1 - x
    positivity

lemma Groothuis_Hendal_pos (m x D rhol rhog Cpl kl mug mu_b : ℝ)
    (mu_w : Option ℝ) (water : Bool) (hm : 0 < m) (hx : 0 < x) (hx1 : x < 1)
    (hD : 0 < D) (hrl : 0 < rhol) (hrg : 0 < rhog) (hCpl : 0 < Cpl)
    (hkl : 0 < kl) (hmug : 0 < mug) (hmub : 0 < mu_b) (hw : OptPos mu_w) :
    0 < Groothuis_Hendal m x D rhol rhog Cpl kl mug mu_b mu_w water := by
  have h1x : (0:ℝ) < 1 - x := by linarith
  simp only [Groothuis_Hendal, Prandtl]
  rcases mu_w with _ | w
  · rw [if_neg truthy_none]
    cases water
    · rw [if_neg (by simp)]
      set u := 1 - x
      positivity
    · rw [if_pos rfl]
      set u := 1 - x
      positivity
  · have hw0 : 0 < w := hw w rfl
    rw [if_pos (truthy_some.mpr hw0.ne')]
    simp only [Option.getD_some]
    cases water
    · rw [if_neg (by simp)]
      set u := 1 - x
      positivity
    · rw [if_pos rfl]
      set u := 1 - x
      positivity

lemma Hughmark_pos (m x alpha D L Cpl kl : ℝ) (mu_b mu_w : Option ℝ)
    (hm : 0 < m) (hx : 0 < x) (hx1 : x < 1) (ha1 : alpha < 1) (hD : 0 < D)
    (hL : 0 < L) (hCpl : 0 < Cpl) (hkl : 0 < kl) (hb : OptPos mu_b)
    (hw : OptPos mu_w) :
    0 < Hughmark m x alpha D L Cpl kl mu_b mu_w := by
  have h1x : (0:ℝ) < 1 - x := by linarith
  have h1a : (0:ℝ) < 1 - alpha := by linarith
  simp only [Hughmark]
  rcases mu_b with _ | b
  · rw [if_neg (by simp [truthy])]
    set u := 1 - x
    set v := 1 - alpha
    positivity
  · have hb0 : 0 < b := hb b rfl
    rcases mu_w with _ | w
    · rw [if_neg (by simp [truthy])]
      set u := 1 - x
      set v := 1 - alpha
      positivity
    · have hw0 : 0 < w := hw w rfl
      rw [if_pos ⟨truthy_some.mpr hb0.ne', truthy_some.mpr hw0.ne'⟩]
      simp only [Option.getD_some]
      set u := 1 - x
      set v := 1 - alpha
      positivity

lemma Knott_pos (m x D rhol rhog Cpl kl mu_b : ℝ) (mu_w : Option ℝ) (L hl : ℝ)
    (hm : 0 < m) (hx : 0 < x) (hx1 : x < 1) (hD : 0 < D) (hrl : 0 < rhol)
    (hrg : 0 < rhog) (hhl : 0 < hl) :
    0 < Knott m x D rhol rhog Cpl kl mu_b mu_w L (some hl) := by
  have h1x : (0:ℝ) < 1 - x := by linarith
  simp only [Knott]
  rw [if_pos (truthy_some.mpr hhl.ne')]
  simp only [Option.getD_some]
  set u := 1 - x
  positivity

lemma Kudirka_Grosh_McFadden_pos (m x D rhol rhog Cpl kl mug mu_b : ℝ)
    (mu_w : Option ℝ) (hm : 0 < m) (hx : 0 < x) (hx1 : x < 1) (hD : 0 < D)
    (hrl : 0 < rhol) (hrg : 0 < rhog) (hCpl : 0 < Cpl) (hkl : 0 < kl)
    (hmug : 0 < mug) (hmub : 0 < mu_b) (hw : OptPos mu_w) :
    0 < Kudirka_Grosh_McFadden m x D rhol rhog Cpl kl mug mu_b mu_w := by
  have h1x : (0:ℝ) < 1 - x := by linarith
  simp only [Kudirka_Grosh_McFadden, Prandtl]
  rcases mu_w with _ | w
  · rw [if_neg truthy_none]
    set u := 1 - x
    positivity
  · have hw0 : 0 < w := hw w rfl
    rw [if_pos (truthy_some.mpr hw0.ne')]
    simp only [Option.getD_some]
    set u := 1 - x
    positivity

lemma Martin_Sims_pos (m x D rhol rhog hl : ℝ) (hm : 0 < m) (hx : 0 < x)
    (hx1 : x < 1) (hD : 0 < D) (hrl : 0 < rhol) (hrg : 0 < rhog)
    (hhl : 0 < hl) :
    0 < Martin_Sims m x D rhol rhog hl := by
  have h1x : (0:ℝ) < 1 - x := by linarith
  simp only [Martin_Sims]
  set u := 1 - x
  positivity

lemma Ravipudi_Godbold_pos (m x D rhol rhog Cpl kl mug mu_b : ℝ)
    (mu_w : Option ℝ) (hm : 0 < m) (hx : 0 < x) (hx1 : x < 1) (hD : 0 < D)
    (hrl : 0 < rhol) (hrg : 0 < rhog) (hCpl : 0 < Cpl) (hkl : 0 < kl)
    (hmug : 0 < mug) (hmub : 0 < mu_b) (hw : OptPos mu_w) :
    0 < Ravipudi_Godbold m x D rhol rhog Cpl kl mug mu_b mu_w := by
  have h1x : (0:ℝ) < 1 - x := by linarith
  simp only [Ravipudi_Godbold, Prandtl]
  rcases mu_w with _ | w
  · rw [if_neg truthy_none]
    set u := 1 - x
    positivity
  · have hw0 : 0 < w := hw w rfl
    rw [if_pos (truthy_some.mpr hw0.ne')]
    simp only [Option.getD_some]
    set u := 1 - x
    positivity

lemma Aggour_pos (m x alpha D rhol Cpl kl mu_b : ℝ) (mu_w : Option ℝ)
    (L : ℝ) (turbulent : Option Bool) (hm : 0 < m) (hx : 0 < x) (hx1 : x < 1)
    (ha1 : alpha < 1) (hD : 0 < D) (hrl : 0 < rhol) (hCpl : 0 < Cpl)
    (hkl : 0 < kl) (hmub : 0 < mu_b) (hL : 0 < L) (hw : OptPos mu_w) :
    0 < Aggour m x alpha D rhol Cpl kl mu_b mu_w L turbulent := by
  have h1x : (0:ℝ) < 1 - x := by linarith
  have h1a : (0:ℝ) < 1 - alpha := by linarith
  unfold Aggour
  split_ifs with hcond
  · simp only [AggourTurb, AggourRel, Prandtl, Reynolds]
    set u := 1 - x
    set v := 1 - alpha
    positivity
  · simp only [AggourLam, AggourRel, Prandtl, Reynolds]
    rcases mu_w with _ | w
    · rw [if_neg truthy_none]
      set u := 1 - x
      set v := 1 - alpha
      positivity
    · have hw0 : 0 < w := hw w rfl
      rw [if_pos (truthy_some.mpr hw0.ne')]
      simp only [Option.getD_some]
      set u := 1 - x
      set v := 1 - alpha
      positivity

/-- C9: every non-boiling correlation returns a strictly positive heat
transfer coefficient whenever all supplied numeric inputs are strictly
positive, quality and void fraction lie in (0,1), and any supplied reference
coefficient `hl` is strictly positive.  (`Knott` is stated for a supplied
`hl`; its other branch computes `hl` from a correlation living outside the
given sources.) -/
theorem nonboiling_positive (m x alpha D L rhol rhog Cpl kl mul mug mu_b hl : ℝ)
    (muwo mubo : Option ℝ) (water : Bool) (turbulent : Option Bool)
    (hm : 0 < m) (hx : 0 < x) (hx1 : x < 1) (ha : 0 < alpha) (ha1 : alpha < 1)
    (hD : 0 < D) (hL : 0 < L) (hrl : 0 < rhol) (hrg : 0 < rhog)
    (hCpl : 0 < Cpl) (hkl : 0 < kl) (hmul : 0 < mul) (hmug : 0 < mug)
    (hmub : 0 < mu_b) (hhl : 0 < hl) (hmuwo : OptPos muwo) (hmubo : OptPos mubo) :
    0 < Davis_David m x D rhol rhog Cpl kl mul
    ∧ 0 < Elamvaluthi_Srinivas m x D rhol rhog Cpl kl mug mu_b muwo
    ∧ 0 < Groothuis_Hendal m x D rhol rhog Cpl kl mug mu_b muwo water
    ∧ 0 < Hughmark m x alpha D L Cpl kl mubo muwo
    ∧ 0 < Knott m x D rhol rhog Cpl kl mu_b muwo L (some hl)
    ∧ 0 < Kudirka_Grosh_McFadden m x D rhol rhog Cpl kl mug mu_b muwo
    ∧ 0 < Martin_Sims m x D rhol rhog hl
    ∧ 0 < Ravipudi_Godbold m x D rhol rhog Cpl kl mug mu_b muwo
    ∧ 0 < Aggour m x alpha D rhol Cpl kl mu_b muwo L turbulent :=
  ⟨Davis_David_pos m x D rhol rhog Cpl kl mul hm hx hD hrl hrg hCpl hkl hmul,
   Elamvaluthi_Srinivas_pos m x D rhol rhog Cpl kl mug mu_b muwo hm hx hx1 hD
     hrl hrg hCpl hkl hmug hmub hmuwo,
   Groothuis_Hendal_pos m x D rhol rhog Cpl kl mug mu_b muwo water hm hx hx1 hD
     hrl hrg hCpl hkl hmug hmub hmuwo,
   Hughmark_pos m x alpha D L Cpl kl mubo muwo hm hx hx1 ha1 hD hL hCpl hkl
     hmubo hmuwo,
   Knott_pos m x D rhol rhog Cpl kl mu_b muwo L hl hm hx hx1 hD hrl hrg hhl,
   Kudirka_Grosh_McFadden_pos m x D rhol rhog Cpl kl mug mu_b muwo hm hx hx1 hD
     hrl hrg hCpl hkl hmug hmub hmuwo,
   Martin_Sims_pos m x D rhol rhog hl hm hx hx1 hD hrl hrg hhl,
   Ravipudi_Godbold_pos m x D rhol rhog Cpl kl mug mu_b muwo hm hx hx1 hD hrl
     hrg hCpl hkl hmug hmub hmuwo,
   Aggour_pos m x alpha D rhol Cpl kl mu_b muwo L turbulent hm hx hx1 ha1 hD
     hrl hCpl hkl hmub hL hmuwo⟩

/-- C9 witness at a concrete input. -/
theorem nonboiling_positive_witness :
    0 < Davis_David 1 (1/2) 1 1 1 1 1 1
    ∧ 0 < Elamvaluthi_Srinivas 1 (1/2) 1 1 1 1 1 1 1 (some 1)
    ∧ 0 < Groothuis_Hendal 1 (1/2) 1 1 1 1 1 1 1 (some 1) false
    ∧ 0 < Hughmark 1 (1/2) (1/2) 1 1 1 1 (some 1) (some 1)
    ∧ 0 < Knott 1 (1/2) 1 1 1 1 1 1 (some 1) 1 (some 1)
    ∧ 0 < Kudirka_Grosh_McFadden 1 (1/2) 1 1 1 1 1 1 1 (some 1)
    ∧ 0 < Martin_Sims 1 (1/2) 1 1 1 1
    ∧ 0 < Ravipudi_Godbold 1 (1/2) 1 1 1 1 1 1 1 (some 1)
    ∧ 0 < Aggour 1 (1/2) (1/2) 1 1 1 1 1 (some 1) 1 none :=
  nonboiling_positive 1 (1/2) (1/2) 1 1 1 1 1 1 1 1 1 1 (some 1) (some 1)
    false none (by norm_num) (by norm_num) (by norm_num) (by norm_num)
    (by norm_num) (by norm_num) (by norm_num) (by norm_num) (by norm_num)
    (by norm_num) (by norm_num) (by norm_num) (by norm_num) (by norm_num)
    (by norm_num) (OptPos_some (by norm_num)) (OptPos_some (by norm_num))

/-! ### Claim C4: the excess-temperature closed forms invert the heat-flux
power laws exactly -/

lemma lazarek_black_key (G R kl D Hvap q h : ℝ) (hG : 0 < G) (hR : 0 < R)
    (hkl : 0 < kl) (hD : 0 < D) (hH : 0 < Hvap) (hq : 0 < q)
    (hhdef : h = 30 * R ^ (0.857:ℝ) * (q/(G*Hvap)) ^ (0.714:ℝ) * kl / D) :
    27000 * (30:ℝ) ^ ((71:ℝ)/143) * (1/(G*Hvap)) ^ ((357:ℝ)/143) *
      R ^ ((857:ℝ)/286) * (q/h) ^ ((357:ℝ)/143) * kl ^ ((500:ℝ)/143) /
      D ^ ((500:ℝ)/143) * (q/h) = q := by
  have hGH : 0 < G * Hvap := mul_pos hG hH
  have hhp : 0 < h := by rw [hhdef]; positivity
  have hTe : 0 < q / h := div_pos hq hhp
  have hlogh : Real.log h = Real.log 30 + 0.857 * Real.log R +
      0.714 * (Real.log q - Real.log (G*Hvap)) + Real.log kl - Real.log D := by
    rw [hhdef, Real.log_div (by positivity) hD.ne',
      Real.log_mul (by positivity) hkl.ne',
      Real.log_mul (by positivity) (by positivity),
      Real.log_mul (by norm_num) (by positivity),
      Real.log_rpow hR, Real.log_rpow (by positivity),
      Real.log_div hq.ne' hGH.ne']
  have hlogTe : Real.log (q/h) = Real.log q - Real.log h :=
    Real.log_div hq.ne' hhp.ne'
  have hlog27 : Real.log (27000:ℝ) = 3 * Real.log 30 := by
    rw [show (27000:ℝ) = 30 ^ (3:ℕ) by norm_num, Real.log_pow]
    push_cast
    ring
  have hprime : 27000 * (30:ℝ) ^ ((71:ℝ)/143) * (1/(G*Hvap)) ^ ((357:ℝ)/143) *
      R ^ ((857:ℝ)/286) * (q/h) ^ ((357:ℝ)/143) * kl ^ ((500:ℝ)/143) /
      D ^ ((500:ℝ)/143) = h := by
    apply Real.log_injOn_pos (Set.mem_Ioi.mpr (by positivity))
      (Set.mem_Ioi.mpr hhp)
    rw [Real.log_div (by positivity) (by positivity),
      Real.log_mul (by positivity) (by positivity),
      Real.log_mul (by positivity) (by positivity),
      Real.log_mul (by positivity) (by positivity),
      Real.log_mul (by positivity) (by positivity),
      Real.log_mul (by norm_num) (by positivity),
      Real.log_rpow (by norm_num), Real.log_rpow (by positivity),
      Real.log_rpow hR, Real.log_rpow hTe, Real.log_rpow hkl,
      Real.log_rpow hD, one_div, Real.log_inv, hlogTe, hlogh, hlog27]
    ring
  rw [hprime, mul_comm, div_mul_cancel₀ _ hhp.ne']

lemma li_wu_key (G Rel Bo kl D Hvap q h : ℝ) (hG : 0 < G) (hR : 0 < Rel)
    (hBo : 0 < Bo) (hkl : 0 < kl) (hD : 0 < D) (hH : 0 < Hvap) (hq : 0 < q)
    (hhdef : h = 334 * (q/(G*Hvap)) ^ (0.3:ℝ) * (Bo * Rel ^ (0.36:ℝ)) ^ (0.4:ℝ) * kl / D) :
    (334 * (Bo * Rel ^ (0.36:ℝ)) ^ (0.4:ℝ) * kl / D) ^ ((10:ℝ)/7) *
      (q/h) ^ ((3:ℝ)/7) / (G ^ ((3:ℝ)/7) * Hvap ^ ((3:ℝ)/7)) * (q/h) = q := by
  have hGH : 0 < G * Hvap := mul_pos hG hH
  have hhp : 0 < h := by rw [hhdef]; positivity
  have hTe : 0 < q / h := div_pos hq hhp
  have hA : 0 < 334 * (Bo * Rel ^ (0.36:ℝ)) ^ (0.4:ℝ) * kl / D := by positivity
  have hlogA : Real.log (334 * (Bo * Rel ^ (0.36:ℝ)) ^ (0.4:ℝ) * kl / D) =
      Real.log 334 + 0.4 * (Real.log Bo + 0.36 * Real.log Rel) + Real.log kl -
        Real.log D := by
    rw [Real.log_div (by positivity) hD.ne',
      Real.log_mul (by positivity) hkl.ne',
      Real.log_mul (by norm_num) (by positivity),
      Real.log_rpow (by positivity),
      Real.log_mul hBo.ne' (by positivity),
      Real.log_rpow hR]
  have hlogh : Real.log h = Real.log 334 +
      0.3 * (Real.log q - (Real.log G + Real.log Hvap)) +
      0.4 * (Real.log Bo + 0.36 * Real.log Rel) + Real.log kl - Real.log D := by
    rw [hhdef, Real.log_div (by positivity) hD.ne',
      Real.log_mul (by positivity) hkl.ne',
      Real.log_mul (by positivity) (by positivity),
      Real.log_mul (by norm_num) (by positivity),
      Real.log_rpow (by positivity),
      Real.log_rpow (by positivity),
      Real.log_mul hBo.ne' (by positivity),
      Real.log_rpow hR,
      Real.log_div hq.ne' hGH.ne',
      Real.log_mul hG.ne' hH.ne']
  have hlogTe : Real.log (q/h) = Real.log q - Real.log h :=
    Real.log_div hq.ne' hhp.ne'
  have hprime : (334 * (Bo * Rel ^ (0.36:ℝ)) ^ (0.4:ℝ) * kl / D) ^ ((10:ℝ)/7) *
      (q/h) ^ ((3:ℝ)/7) / (G ^ ((3:ℝ)/7) * Hvap ^ ((3:ℝ)/7)) = h := by
    apply Real.log_injOn_pos (Set.mem_Ioi.mpr (by positivity))
      (Set.mem_Ioi.mpr hhp)
    rw [Real.log_div (by positivity) (by positivity),
      Real.log_mul (by positivity) (by positivity),
      Real.log_mul (by positivity) (by positivity),
      Real.log_rpow hA, Real.log_rpow hTe, Real.log_rpow hG, Real.log_rpow hH,
      hlogA, hlogTe, hlogh]
    ring
  rw [hprime, mul_comm, div_mul_cancel₀ _ hhp.ne']

lemma sun_mishima_key (G Relo We P kl D Hvap q h : ℝ) (hG : 0 < G)
    (hR : 0 < Relo) (hWe : 0 < We) (hP : 0 < P) (hkl : 0 < kl) (hD : 0 < D)
    (hH : 0 < Hvap) (hq : 0 < q)
    (hhdef : h = 6 * Relo ^ (1.05:ℝ) * (q/(G*Hvap)) ^ (0.54:ℝ) /
      (We ^ (0.191:ℝ) * P ^ (0.142:ℝ)) * kl / D) :
    (6 * Relo ^ (1.05:ℝ) / (We ^ (0.191:ℝ) * P ^ (0.142:ℝ)) * kl / D) ^
        ((50:ℝ)/23) * (q/h) ^ ((27:ℝ)/23) /
      (G ^ ((27:ℝ)/23) * Hvap ^ ((27:ℝ)/23)) * (q/h) = q := by
  have hGH : 0 < G * Hvap := mul_pos hG hH
  have hhp : 0 < h := by rw [hhdef]; positivity
  have hTe : 0 < q / h := div_pos hq hhp
  have hA : 0 < 6 * Relo ^ (1.05:ℝ) / (We ^ (0.191:ℝ) * P ^ (0.142:ℝ)) * kl / D := by
    positivity
  have hlogA : Real.log (6 * Relo ^ (1.05:ℝ) /
      (We ^ (0.191:ℝ) * P ^ (0.142:ℝ)) * kl / D) =
      Real.log 6 + 1.05 * Real.log Relo - 0.191 * Real.log We -
        0.142 * Real.log P + Real.log kl - Real.log D := by
    rw [Real.log_div (by positivity) hD.ne',
      Real.log_mul (by positivity) hkl.ne',
      Real.log_div (by positivity) (by positivity),
      Real.log_mul (by norm_num) (by positivity),
      Real.log_mul (by positivity) (by positivity),
      Real.log_rpow hR, Real.log_rpow hWe, Real.log_rpow hP]
    ring
  have hlogh : Real.log h = Real.log 6 + 1.05 * Real.log Relo +
      0.54 * (Real.log q - (Real.log G + Real.log Hvap)) -
      0.191 * Real.log We - 0.142 * Real.log P + Real.log kl - Real.log D := by
    rw [hhdef, Real.log_div (by positivity) hD.ne',
      Real.log_mul (by positivity) hkl.ne',
      Real.log_div (by positivity) (by positivity),
      Real.log_mul (by positivity) (by positivity),
      Real.log_mul (by norm_num) (by positivity),
      Real.log_rpow hR, Real.log_rpow (by positivity),
      Real.log_mul (by positivity) (by positivity),
      Real.log_rpow hWe, Real.log_rpow hP,
      Real.log_div hq.ne' hGH.ne', Real.log_mul hG.ne' hH.ne']
    ring
  have hlogTe : Real.log (q/h) = Real.log q - Real.log h :=
    Real.log_div hq.ne' hhp.ne'
  have hprime : (6 * Relo ^ (1.05:ℝ) / (We ^ (0.191:ℝ) * P ^ (0.142:ℝ)) * kl / D) ^
        ((50:ℝ)/23) * (q/h) ^ ((27:ℝ)/23) /
      (G ^ ((27:ℝ)/23) * Hvap ^ ((27:ℝ)/23)) = h := by
    apply Real.log_injOn_pos (Set.mem_Ioi.mpr (by positivity))
      (Set.mem_Ioi.mpr hhp)
    rw [Real.log_div (by positivity) (by positivity),
      Real.log_mul (by positivity) (by positivity),
      Real.log_mul (by positivity) (by positivity),
      Real.log_rpow hA, Real.log_rpow hTe, Real.log_rpow hG, Real.log_rpow hH,
      hlogA, hlogTe, hlogh]
    ring
  rw [hprime, mul_comm, div_mul_cancel₀ _ hhp.ne']

lemma yun_heo_kim_key (G Rel We Hvap q h : ℝ) (hG : 0 < G) (hR : 0 < Rel)
    (hWe : 0 < We) (hH : 0 < Hvap) (hq : 0 < q)
    (hhdef : h = 136876 * (q/(G*Hvap) * We) ^ (0.1993:ℝ) * Rel ^ (-0.1626:ℝ)) :
    (136876 * We ^ (0.1993:ℝ) * Rel ^ (-0.1626:ℝ) *
        ((q/h)/G/Hvap) ^ (0.1993:ℝ)) ^ ((10000:ℝ)/8007) * (q/h) = q := by
  have hGH : 0 < G * Hvap := mul_pos hG hH
  have hhp : 0 < h := by rw [hhdef]; positivity
  have hTe : 0 < q / h := div_pos hq hhp
  have hlogh : Real.log h = Real.log 136876 +
      0.1993 * (Real.log q - (Real.log G + Real.log Hvap) + Real.log We) -
      0.1626 * Real.log Rel := by
    rw [hhdef, Real.log_mul (by positivity) (by positivity),
      Real.log_mul (by norm_num) (by positivity),
      Real.log_rpow (by positivity), Real.log_rpow hR,
      Real.log_mul (by positivity) hWe.ne',
      Real.log_div hq.ne' hGH.ne', Real.log_mul hG.ne' hH.ne']
    ring
  have hlogTe : Real.log (q/h) = Real.log q - Real.log h :=
    Real.log_div hq.ne' hhp.ne'
  have hprime : (136876 * We ^ (0.1993:ℝ) * Rel ^ (-0.1626:ℝ) *
      ((q/h)/G/Hvap) ^ (0.1993:ℝ)) ^ ((10000:ℝ)/8007) = h := by
    apply Real.log_injOn_pos (Set.mem_Ioi.mpr (by positivity))
      (Set.mem_Ioi.mpr hhp)
    rw [Real.log_rpow (by positivity),
      Real.log_mul (by positivity) (by positivity),
      Real.log_mul (by positivity) (by positivity),
      Real.log_mul (by norm_num) (by positivity),
      Real.log_rpow hWe, Real.log_rpow hR, Real.log_rpow (by positivity),
      Real.log_div (by positivity) hH.ne', Real.log_div hTe.ne' hG.ne',
      hlogTe, hlogh]
    ring
  rw [hprime, mul_comm, div_mul_cancel₀ _ hhp.ne']

/-- C4: for each analytically-inverted boiling correlation, feeding
`Te = q / h(q)` back through the excess-temperature closed form returns a
coefficient whose implied heat flux `h'·Te` equals the original `q` exactly:
the closed form is the exact algebraic inverse of the heat-flux power law. -/
theorem boiling_round_trip (m x D rhol rhog mul kl Hvap sigma q : ℝ)
    (hm : 0 < m) (hx : 0 < x) (hx1 : x < 1) (hD : 0 < D) (hrg : 0 < rhog)
    (hrlg : rhog < rhol) (hmul : 0 < mul) (hkl : 0 < kl) (hH : 0 < Hvap)
    (hsigma : 0 < sigma) (hq : 0 < q) :
    Lazarek_Black_Te m D mul kl Hvap
        (q / Lazarek_Black_direct m D mul kl Hvap q) *
      (q / Lazarek_Black_direct m D mul kl Hvap q) = q
    ∧ Li_Wu_Te m x D rhol rhog mul kl Hvap sigma
        (q / Li_Wu_direct m x D rhol rhog mul kl Hvap sigma q) *
      (q / Li_Wu_direct m x D rhol rhog mul kl Hvap sigma q) = q
    ∧ Sun_Mishima_Te m D rhol rhog mul kl Hvap sigma
        (q / Sun_Mishima_direct m D rhol rhog mul kl Hvap sigma q) *
      (q / Sun_Mishima_direct m D rhol rhog mul kl Hvap sigma q) = q
    ∧ Yun_Heo_Kim_Te m x D rhol mul Hvap sigma
        (q / Yun_Heo_Kim_direct m x D rhol mul Hvap sigma q) *
      (q / Yun_Heo_Kim_direct m x D rhol mul Hvap sigma q) = q := by
  have hrl : 0 < rhol := hrg.trans hrlg
  have h1x : (0:ℝ) < 1 - x := by linarith
  have hBo : 0 < Bond rhol rhog sigma D := by
    have hrr : (0:ℝ) < rhol - rhog := by linarith
    simp only [Bond, gravity]
    set u := rhol - rhog
    positivity
  have hWe : 0 < Weber (m / (π/4*D^2) / rhol) D rhol sigma := by
    simp only [Weber]
    positivity
  refine ⟨?_, ?_, ?_, ?_⟩
  · simp only [Lazarek_Black_Te, Lazarek_Black_direct, Boiling]
    exact lazarek_black_key (m / (π/4*D^2)) (m / (π/4*D^2) * D / mul) kl D Hvap
      q _ (by positivity) (by positivity) hkl hD hH hq rfl
  · simp only [Li_Wu_Te, Li_Wu_direct, Boiling]
    exact li_wu_key (m / (π/4*D^2)) (m / (π/4*D^2) * D * (1-x) / mul)
      (Bond rhol rhog sigma D) kl D Hvap q _ (by positivity) (by positivity)
      hBo hkl hD hH hq rfl
  · simp only [Sun_Mishima_Te, Sun_Mishima_direct, Boiling]
    exact sun_mishima_key (m / (π/4*D^2)) (m / (π/4*D^2) * D / mul)
      (Weber (m / (π/4*D^2) / rhol) D rhol sigma) (rhol/rhog) kl D Hvap q _
      (by positivity) (by positivity) hWe (by positivity) hkl hD hH hq rfl
  · simp only [Yun_Heo_Kim_Te, Yun_Heo_Kim_direct, Boiling]
    exact yun_heo_kim_key (m / (π/4*D^2)) (m / (π/4*D^2) * D * (1-x) / mul)
      (Weber (m / (π/4*D^2) / rhol) D rhol sigma) Hvap q _ (by positivity)
      (by positivity) hWe hH hq rfl

/-- C4 witness at a concrete input. -/
theorem boiling_round_trip_witness :
    Lazarek_Black_Te 1 1 1 1 1 (1 / Lazarek_Black_direct 1 1 1 1 1 1) *
      (1 / Lazarek_Black_direct 1 1 1 1 1 1) = 1
    ∧ Li_Wu_Te 1 (1/2) 1 2 1 1 1 1 1
        (1 / Li_Wu_direct 1 (1/2) 1 2 1 1 1 1 1 1) *
      (1 / Li_Wu_direct 1 (1/2) 1 2 1 1 1 1 1 1) = 1
    ∧ Sun_Mishima_Te 1 1 2 1 1 1 1 1
        (1 / Sun_Mishima_direct 1 1 2 1 1 1 1 1 1) *
      (1 / Sun_Mishima_direct 1 1 2 1 1 1 1 1 1) = 1
    ∧ Yun_Heo_Kim_Te 1 (1/2) 1 2 1 1 1
        (1 / Yun_Heo_Kim_direct 1 (1/2) 1 2 1 1 1 1) *
      (1 / Yun_Heo_Kim_direct 1 (1/2) 1 2 1 1 1 1) = 1 :=
  boiling_round_trip 1 (1/2) 1 2 1 1 1 1 1 1 (by norm_num) (by norm_num)
    (by norm_num) (by norm_num) (by norm_num) (by norm_num) (by norm_num)
    (by norm_num) (by norm_num) (by norm_num) (by norm_num)

end

end HT
